import Mathlib

/-!
Area light and Phong shader of eyden-tracer-05.

A shallow embedding of `src/LightArea.h` (`CLightArea`) and `src/ShaderPhong.h`
(`CShaderPhong`) and the properties of the two that the specification states.

The code is embedded twice.

* Over exact rationals (`EydenTracer.Vec3f`, `EydenTracer.CShaderPhong.shade`, ...):
  `float`/`double` values are numbers of `ℚ`, without rounding, overflow or NaN.  This is the
  embedding of the algebraic properties.  A quotient by zero has no value in `ℚ`: where the
  code divides by a zero sample count, or returns a radiance made of the quotient by a zero
  distance, the embedding reports `Fault.div_by_zero`.
* Over floating-point values that are finite, infinite or NaN (`EydenTracer.Ieee`), with
  IEEE 754 overflow, quotients by zero and comparisons.  This is the embedding of the
  properties that turn on such values: the upper and lower bounds of the shaded colour and
  the area light at distance zero.

In both, `std::optional::value()` on an empty optional throws `std::bad_optional_access`,
which is `Fault.bad_optional_access`, and `ray.hit->...` on a null `hit` is `Fault.null_hit`.
The library functions `sqrt` and `powf` are parameters (`Libm`).
-/

namespace EydenTracer

/-! ## Vectors (`cv::Vec3f`) -/

/-- Three components `val[0]`, `val[1]`, `val[2]` of a `Vec3f`. -/
@[ext]
structure Vec3f where
  x : ℚ
  y : ℚ
  z : ℚ
deriving DecidableEq

namespace Vec3f

/-- The vector `Vec3f::all(a)`. -/
def all (a : ℚ) : Vec3f := ⟨a, a, a⟩

/-- Componentwise sum, `a + b`. -/
def add (a b : Vec3f) : Vec3f := ⟨a.x + b.x, a.y + b.y, a.z + b.z⟩

/-- Componentwise difference, `a - b`. -/
def sub (a b : Vec3f) : Vec3f := ⟨a.x - b.x, a.y - b.y, a.z - b.z⟩

/-- Negation, `-a`. -/
def neg (a : Vec3f) : Vec3f := ⟨-a.x, -a.y, -a.z⟩

/-- Scalar times vector, `k * a`. -/
def smul (k : ℚ) (a : Vec3f) : Vec3f := ⟨k * a.x, k * a.y, k * a.z⟩

/-- Vector times scalar, `a * k`. -/
def muls (a : Vec3f) (k : ℚ) : Vec3f := ⟨a.x * k, a.y * k, a.z * k⟩

/-- Componentwise product, `a.mul(b)`. -/
def mul (a b : Vec3f) : Vec3f := ⟨a.x * b.x, a.y * b.y, a.z * b.z⟩

/-- Dot product, `a.dot(b)`. -/
def dot (a b : Vec3f) : ℚ := a.x * b.x + a.y * b.y + a.z * b.z

/-- Cross product, `a.cross(b)`. -/
def cross (a b : Vec3f) : Vec3f :=
  ⟨a.y * b.z - a.z * b.y, a.z * b.x - a.x * b.z, a.x * b.y - a.y * b.x⟩

instance : Add Vec3f := ⟨add⟩
instance : Sub Vec3f := ⟨sub⟩
instance : Neg Vec3f := ⟨neg⟩
instance : HMul ℚ Vec3f Vec3f := ⟨smul⟩
instance : HMul Vec3f ℚ Vec3f := ⟨muls⟩

end Vec3f

/-- Modelled from the spec: the colour `RGB(r, g, b)` (the declaration is not among the
sources; the spec writes the only call, `RGB(1, 1, 1)`, as the vector `(1,1,1)`, which
no channel order changes). -/
def RGB (r g b : ℚ) : Vec3f := ⟨r, g, b⟩

/-- The functions of the C math library the code calls; they have no exact rational
counterpart and are taken as they come. -/
structure Libm where
  sqrt : ℚ → ℚ
  powf : ℚ → ℚ → ℚ

/-- Euclidean length `norm(v)` of OpenCV: the square root of `v · v`. -/
def norm (m : Libm) (v : Vec3f) : ℚ := m.sqrt (v.dot v)

/-- The function `normalize(v)` of OpenCV: `v * (nv ? 1./nv : 0.)` with `nv = norm(v)`. -/
def normalize (m : Libm) (v : Vec3f) : Vec3f :=
  let nv := norm m v
  v * (if nv ≠ 0 then 1 / nv else 0)

/-! ## Rays -/

/-- A primitive as a ray's `hit` sees it: `getNormal(ray)`, a function of the ray's origin,
direction and distance. -/
structure IPrim where
  getNormal : Vec3f → Vec3f → ℚ → Vec3f

/-- The record `Ray`: origin, direction, distance and the pointer `hit` to the primitive
that was hit (`none` is the null pointer). -/
structure Ray where
  org : Vec3f
  dir : Vec3f
  t : ℚ
  hit : Option IPrim

/-- Ways a call leaves the normal flow of the exact model. -/
inductive Fault where
  | bad_optional_access
  | div_by_zero
  | null_hit
deriving DecidableEq

/-! ## Sampler and point light (collaborators of the area light) -/

/-- Modelled from the spec: the sampler `CSampler` (its header is not among the sources):
`getCurSample()` is a cursor advanced by the rendering loop, `getSample(index)` a pair of
numbers and `getNumSamples()` the number of samples. -/
structure CSampler where
  curSample : ℕ
  samples : ℕ → ℚ × ℚ
  numSamples : ℕ

namespace CSampler

/-- The call `getCurSample()`: the cursor is read and stays where it is. -/
def getCurSample (s : CSampler) : ℕ := s.curSample

/-- The call `getSample(s)`. -/
def getSample (s : CSampler) (i : ℕ) : ℚ × ℚ := s.samples i

/-- The call `getNumSamples()`. -/
def getNumSamples (s : CSampler) : ℕ := s.numSamples

end CSampler

/-- State of the base class `CLightOmni`, as the constructor call
`CLightOmni(intensity, p0, castShadow)` and `setOrigin` show it. -/
structure CLightOmni where
  m_intensity : Vec3f
  m_org : Vec3f
  m_castShadow : Bool

/-- The call `CLightOmni::setOrigin(org)`. -/
def CLightOmni.setOrigin (l : CLightOmni) (org : Vec3f) : CLightOmni :=
  { l with m_org := org }

/-- The point-light base behaviour `CLightOmni::illuminate(ray)`, whose code is not among
the sources: from the base state and the ray it gives the optional radiance and the ray
as it has written it. -/
abbrev OmniIlluminate := CLightOmni → Ray → Option Vec3f × Ray

/-! ## `CLightArea` (src/LightArea.h) -/

/-- State of a `CLightArea`: the inherited point light and the members `m_org`, `m_edge1`,
`m_edge2`, `m_area`, `m_normal`, `m_pSampler`.  The member `m_org` of `CLightArea` is
`m_areaOrg` here, `m_org` being the origin the inherited point light holds. -/
structure CLightArea extends CLightOmni where
  m_areaOrg : Vec3f
  m_edge1 : Vec3f
  m_edge2 : Vec3f
  m_area : ℚ
  m_normal : Vec3f
  m_pSampler : CSampler

namespace CLightArea

/-- The constructor `CLightArea(intensity, p0, p1, p2, p3, pSampler, castShadow)`
(lines 27-37). -/
def new (m : Libm) (intensity p0 p1 _p2 p3 : Vec3f) (pSampler : CSampler)
    (castShadow : Bool) : CLightArea :=
  let m_edge1 := p1 - p0
  let m_edge2 := p3 - p0
  let m_normal := m_edge1.cross m_edge2
  let m_area := norm m m_normal
  let m_normal := normalize m m_normal
  { m_intensity := intensity, m_org := p0, m_castShadow := castShadow,
    m_areaOrg := p0, m_edge1 := m_edge1, m_edge2 := m_edge2,
    m_area := m_area, m_normal := m_normal, m_pSampler := pSampler }

/-- The point of the emitter that `illuminate` hands to `setOrigin` (lines 42-44):
`m_org + sample[0]*m_edge1 + sample[1]*m_edge2` for the sampler's current sample. -/
def samplePoint (l : CLightArea) : Vec3f :=
  let s := l.m_pSampler.getCurSample
  let sample := l.m_pSampler.getSample s
  l.m_areaOrg + sample.1 * l.m_edge1 + sample.2 * l.m_edge2

/-- The light after `CLightOmni::setOrigin(org)`: the inherited origin is written. -/
def setOrigin (l : CLightArea) (org : Vec3f) : CLightArea :=
  { l with toCLightOmni := l.toCLightOmni.setOrigin org }

/-- The method `illuminate(ray)` (lines 39-53).  The result is the optional radiance, the ray
as written, and the light after the call (`setOrigin` writes the inherited origin).

With `ray.t = 0` the quotient of line 48 is no rational number.  When `-(dir · normal) > 0`
it is `+Inf`, the test of line 49 succeeds and the radiance returned is
`area · Inf · light`, which no rational vector holds: there, and only there, the
embedding reports `Fault.div_by_zero`.  Otherwise the quotient is `-Inf` or NaN, the test
fails and nothing is returned; the rational quotient (`x / 0 = 0`) gives the same.
`Ieee.CLightArea.illuminate` below has the values themselves. -/
def illuminate (omni : OmniIlluminate) (l : CLightArea) (ray : Ray) :
    Except Fault (Option Vec3f × Ray × CLightArea) :=
  let l1 := l.setOrigin l.samplePoint
  match omni l1.toCLightOmni ray with
  | (none, _) => .error .bad_optional_access
  | (some light, ray1) =>
    if ray1.t = 0 ∧ -(ray1.dir.dot l1.m_normal) > 0 then .error .div_by_zero
    else
      let normCos := -(ray1.dir.dot l1.m_normal) / ray1.t
      if normCos > 0 then .ok (some ((l1.m_area * normCos) * light), ray1, l1)
      else .ok (none, ray1, l1)

/-- The method `getNumSamples()` (line 54). -/
def getNumSamples (l : CLightArea) : ℕ := l.m_pSampler.getNumSamples

/-- The method `getNormal(position)` (line 60). -/
def getNormal (l : CLightArea) (_position : Vec3f) : Vec3f := l.m_normal

end CLightArea

/-! ## `CShaderPhong` (src/ShaderPhong.h) -/

/-- The interface of a light as the shader uses it: `illuminate(ray)` and
`getNumSamples()`.  The lights of a scene live in a store of type `σ` (the objects the
pointers refer to); a call reads the store and leaves a store behind. -/
structure CLight (σ : Type) where
  illuminate : σ → Ray → Except Fault (Option Vec3f × Ray × σ)
  getNumSamples : σ → ℕ

/-- The scene as the shader uses it: `getLights()` in order and `occluded(ray)`. -/
structure CScene (σ : Type) where
  getLights : List (CLight σ)
  occluded : Ray → Bool

/-- Members of a `CShaderPhong`: the scene, the colour handed to `CShaderFlat`, and the
four coefficients. -/
structure CShaderPhong (σ : Type) where
  m_scene : CScene σ
  m_color : Vec3f
  m_ka : ℚ
  m_kd : ℚ
  m_ks : ℚ
  m_ke : ℚ

/-- Modelled from the spec: the flat-colour base behaviour `CShaderFlat::shade(ray)` (its
header is not among the sources) gives the unlit base colour, the colour the constructor
hands to `CShaderFlat(color)`. -/
def CShaderFlat.shade {σ : Type} (sh : CShaderPhong σ) (_ray : Ray) : Vec3f := sh.m_color

namespace CShaderPhong

variable {σ : Type}

/-- Body of `if (lightIntensity) { ... }` (lines 59-74) for a sample of radiance
`lightIntensity`: the new value of `sampleLight`. -/
def sampleBody (m : Libm) (sh : CShaderPhong σ) (normal reflect color : Vec3f)
    (shadow : Ray) (lightIntensity : Vec3f) (sampleLight : Vec3f) : Vec3f :=
  let cosLightNormal := shadow.dir.dot normal
  if cosLightNormal > 0 ∧ sh.m_scene.occluded shadow = true then
    sampleLight
  else
    let sampleLight1 :=
      if cosLightNormal > 0 then
        let diffuseColor := sh.m_kd * color
        sampleLight + (diffuseColor * cosLightNormal).mul lightIntensity
      else sampleLight
    let cosLightReflect := shadow.dir.dot reflect
    if cosLightReflect > 0 then
      let specularColor := sh.m_ks * RGB 1 1 1
      sampleLight1 + (specularColor * m.powf cosLightReflect sh.m_ke).mul lightIntensity
    else sampleLight1

/-- What one pass of the loop body (lines 57-75) adds to `sampleLight`: nothing when
`illuminate` reports nothing, and otherwise what `sampleBody` adds. -/
def sampleTerm (m : Libm) (sh : CShaderPhong σ) (normal reflect color : Vec3f)
    (lightIntensity : Option Vec3f) (shadow : Ray) : Vec3f :=
  match lightIntensity with
  | none => Vec3f.all 0
  | some L => sampleBody m sh normal reflect color shadow L (Vec3f.all 0)

/-- The loop `for (size_t s = 0; s < sampleCount; s++)` (lines 55-76), `k` iterations
to go: the store, the shadow ray and `sampleLight` after the loop. -/
def sampleLoop (m : Libm) (sh : CShaderPhong σ) (pLight : CLight σ)
    (normal reflect color : Vec3f) :
    ℕ → σ → Ray → Vec3f → Except Fault (σ × Ray × Vec3f)
  | 0, w, shadow, sampleLight => .ok (w, shadow, sampleLight)
  | k + 1, w, shadow, sampleLight =>
    match pLight.illuminate w shadow with
    | .error e => .error e
    | .ok (none, shadow1, w1) =>
      sampleLoop m sh pLight normal reflect color k w1 shadow1 sampleLight
    | .ok (some lightIntensity, shadow1, w1) =>
      sampleLoop m sh pLight normal reflect color k w1 shadow1
        (sampleBody m sh normal reflect color shadow1 lightIntensity sampleLight)

/-- The loop `for (auto pLight : m_scene.getLights())` (lines 51-78) over the lights that
are left: the value of `res` after the loop. -/
def lightLoop (m : Libm) (sh : CShaderPhong σ) (normal reflect color : Vec3f) :
    List (CLight σ) → σ → Ray → Vec3f → Except Fault Vec3f
  | [], _, _, res => .ok res
  | pLight :: rest, w, shadow, res =>
    let sampleLight := Vec3f.all 0
    let sampleCount := pLight.getNumSamples w
    match sampleLoop m sh pLight normal reflect color sampleCount w shadow sampleLight with
    | .error e => .error e
    | .ok (w1, shadow1, sampleLight1) =>
      if sampleCount = 0 then .error .div_by_zero
      else
        lightLoop m sh normal reflect color rest w1 shadow1
          (res + (1 / (sampleCount : ℚ)) * sampleLight1)

/-- The final loop `for (int i = 0; i < 3; i++) if (res.val[i] > 1) res.val[i] = 1;`
(lines 80-81). -/
def clamp (res : Vec3f) : Vec3f :=
  ⟨if res.x > 1 then 1 else res.x, if res.y > 1 then 1 else res.y,
   if res.z > 1 then 1 else res.z⟩

/-- The corrected shading normal (lines 30-34). -/
def shadingNormal (n dir : Vec3f) : Vec3f :=
  if n.dot dir > 0 then -n else n

/-- The reflection vector (line 37). -/
def reflection (m : Libm) (normal dir : Vec3f) : Vec3f :=
  normalize m (dir - (2 * normal.dot dir) * normal)

/-- The ambient term (lines 40-44). -/
def ambient (sh : CShaderPhong σ) (color : Vec3f) : Vec3f :=
  let ambientIntensity : Vec3f := ⟨1, 1, 1⟩
  let ambientColor := sh.m_ka * color
  ambientColor.mul ambientIntensity

/-- Lines 29-78 of `shade(ray)`: the value of `res` before the final clamp.  `w` is the
store of the lights at the call and `shadow0` the default-constructed `Ray shadow;`. -/
def shadeUnclamped (m : Libm) (sh : CShaderPhong σ) (w : σ) (shadow0 : Ray) (ray : Ray) :
    Except Fault Vec3f :=
  match ray.hit with
  | none => .error .null_hit
  | some prim =>
    let normal := shadingNormal (prim.getNormal ray.org ray.dir ray.t) ray.dir
    let reflect := reflection m normal ray.dir
    let color := CShaderFlat.shade sh ray
    let res := ambient sh color
    let shadow : Ray := { shadow0 with org := ray.org + ray.t * ray.dir }
    lightLoop m sh normal reflect color sh.m_scene.getLights w shadow res

/-- The method `shade(ray)` (lines 27-84). -/
def shade (m : Libm) (sh : CShaderPhong σ) (w : σ) (shadow0 : Ray) (ray : Ray) :
    Except Fault Vec3f :=
  match shadeUnclamped m sh w shadow0 ray with
  | .error e => .error e
  | .ok res => .ok (clamp res)

end CShaderPhong

/-- An area light as a light of a scene whose store is that light (the virtual calls
`pLight->illuminate(shadow)` and `pLight->getNumSamples()` on a `CLightArea`). -/
def CLightArea.toCLight (omni : OmniIlluminate) : CLight CLightArea where
  illuminate := fun l ray => CLightArea.illuminate omni l ray
  getNumSamples := fun l => CLightArea.getNumSamples l

/-- The shader `sh` in the scene that differs from its own in the list of lights only. -/
def CShaderPhong.withLights {σ : Type} (sh : CShaderPhong σ) (ls : List (CLight σ)) :
    CShaderPhong σ :=
  { sh with m_scene := { sh.m_scene with getLights := ls } }

/-- The light `l` with the same `illuminate`, reporting `n` samples. -/
def CLight.withSamples {σ : Type} (l : CLight σ) (n : ℕ) : CLight σ :=
  { l with getNumSamples := fun _ => n }

/-! ## Concrete instances, for evaluating the definitions -/

/-- A square root on the rationals that is exact on squares of rationals. -/
def ratSqrt (q : ℚ) : ℚ := (Nat.sqrt q.num.toNat : ℚ) / (Nat.sqrt q.den : ℚ)

/-- A math library for evaluation: `ratSqrt` and the power with the exponent rounded
down to a natural number. -/
def exLibm : Libm where
  sqrt := ratSqrt
  powf := fun b e => b ^ (Int.toNat ⌊e⌋)

/-- A point light for evaluation: direction and distance to the origin the light holds,
and the intensity attenuated by the squared distance. -/
def exOmni : OmniIlluminate := fun l ray =>
  let d := l.m_org - ray.org
  let t := norm exLibm d
  (some ((1 / (t * t)) * l.m_intensity),
    { ray with dir := normalize exLibm d, t := t, hit := none })

/-- A point light for evaluation that reports `rad` and writes direction `d` and
distance `t`, whatever the ray. -/
def exOmniFixed (rad : Option Vec3f) (d : Vec3f) (t : ℚ) : OmniIlluminate :=
  fun _ ray => (rad, { ray with dir := d, t := t })

/-- An area light for evaluation: the unit square with corners `(0,0,1)`, `(0,1,1)`,
`(1,1,1)`, `(1,0,1)`, facing down, of intensity `(1,1,1)`, with a one-sample sampler whose
sample is `(0,0)`. -/
def exAreaLight : CLightArea :=
  CLightArea.new exLibm ⟨1, 1, 1⟩ ⟨0, 0, 1⟩ ⟨0, 1, 1⟩ ⟨1, 1, 1⟩ ⟨1, 0, 1⟩
    ⟨0, fun _ => (0, 0), 1⟩ true

/-- The area light `exAreaLight` with a sampler whose sample is `(1/2, 1/2)`: the sampled
point is the centre `(1/2, 1/2, 1)` of the square. -/
def exAreaLightMid : CLightArea :=
  CLightArea.new exLibm ⟨1, 1, 1⟩ ⟨0, 0, 1⟩ ⟨0, 1, 1⟩ ⟨1, 1, 1⟩ ⟨1, 0, 1⟩
    ⟨0, fun _ => (1/2, 1/2), 1⟩ true

/-- A shader (`ka = 1/10`, `kd = 1/2`, `ks = 0`) on a white surface in an unoccluded scene
whose one light is an area light over the point light `exOmni`. -/
def exAreaShader : CShaderPhong CLightArea :=
  ⟨⟨[CLightArea.toCLight exOmni], fun _ => false⟩, ⟨1, 1, 1⟩, 1/10, 1/2, 0, 1⟩

/-- A shadow ray for evaluation that starts at the origin. -/
def exShadow : Ray := ⟨⟨0, 0, 0⟩, ⟨0, 0, 0⟩, 0, none⟩

/-- A flat primitive whose normal is `n` wherever it is hit. -/
def exPrim (n : Vec3f) : IPrim := ⟨fun _ _ _ => n⟩

/-- A default-constructed ray for evaluation. -/
def exRay0 : Ray := ⟨⟨0, 0, 0⟩, ⟨0, 0, 0⟩, 0, none⟩

/-- A light for evaluation (store `Unit`): every call reports radiance `rad` and writes
direction `d` and distance `t`. -/
def exLight (rad d : Vec3f) (t : ℚ) (n : ℕ) : CLight Unit where
  illuminate := fun _ ray => .ok (some rad, { ray with dir := d, t := t }, ())
  getNumSamples := fun _ => n

/-- A ray that hits the plane `z = 0` (normal `(0,0,1)`) at the origin, straight from
above. -/
def exRay : Ray := ⟨⟨0, 0, 1⟩, ⟨0, 0, -1⟩, 1, some (exPrim ⟨0, 0, 1⟩)⟩

/-- A shader with `ka = kd = ks = 2` on a white surface under one bright, unoccluded
light straight above. -/
def exBrightShader : CShaderPhong Unit :=
  ⟨⟨[exLight ⟨10, 10, 10⟩ ⟨0, 0, 1⟩ 1 1], fun _ => false⟩, ⟨1, 1, 1⟩, 2, 2, 2, 1⟩

/-- A shader with `ka = 2` on a white surface in a scene without lights. -/
def exNoLightShader : CShaderPhong Unit :=
  ⟨⟨[], fun _ => false⟩, ⟨1, 1, 1⟩, 2, 0, 0, 0⟩

/-- A shader with `ka = 1/2` on a surface of colour `(1, 1/2, 0)` in a scene without
lights. -/
def exDimNoLightShader : CShaderPhong Unit :=
  ⟨⟨[], fun _ => false⟩, ⟨1, 1/2, 0⟩, 1/2, 0, 0, 0⟩

/-- A shader (`ka = 1/10`, `kd = ks = 1/2`, `ke = 1`) in a scene where every shadow ray
is occluded and whose one light lies in direction `d`. -/
def exOccludedShader (d : Vec3f) : CShaderPhong Unit :=
  ⟨⟨[exLight ⟨1, 1, 1⟩ d 1 1], fun _ => true⟩, ⟨1, 1, 1⟩, 1/10, 1/2, 1/2, 1⟩

/-- A shader (`ka = 1/10`, `kd = ks = 1/2`, `ke = 1`) on a white surface in an unoccluded
scene whose one light, of radiance `(1,1,1)`, lies straight above. -/
def exLitShader : CShaderPhong Unit :=
  ⟨⟨[exLight ⟨1, 1, 1⟩ ⟨0, 0, 1⟩ 1 1], fun _ => false⟩, ⟨1, 1, 1⟩, 1/10, 1/2, 1/2, 1⟩

/-- A shader in a scene whose one light reports zero samples. -/
def exZeroSampleShader : CShaderPhong Unit :=
  ⟨⟨[exLight ⟨1, 1, 1⟩ ⟨0, 0, 1⟩ 1 0], fun _ => false⟩, ⟨1, 1, 1⟩, 1/10, 1/2, 1/2, 1⟩

/-! ## The same code over floating-point values

The definitions above compute with exact rationals.  Those of this section compute with
values that are finite, infinite or NaN, so that overflow, the quotient by zero and the
comparisons of NaN are those of IEEE 754: they serve the properties that turn on such
values.  A finite result is rounded by the format's `round` (a parameter) and overflows to
an infinity beyond the format's largest finite number; zero has no sign, and a zero
divisor counts as `+0`. -/

namespace Ieee

/-- A floating-point value: a finite number, `+Inf`, `-Inf` or NaN. -/
inductive FloatVal where
  | finite (q : ℚ)
  | posInf
  | negInf
  | nan
deriving DecidableEq

/-- A floating-point format: its largest finite number and the rounding of an exact
result to the format (the exponent taken unbounded). -/
structure FloatFormat where
  maxFinite : ℚ
  round : ℚ → ℚ

namespace FloatVal

/-- The value of an exact result: rounded, and an infinity when that is out of range. -/
def ofRat (fmt : FloatFormat) (q : ℚ) : FloatVal :=
  if fmt.round q > fmt.maxFinite then posInf
  else if fmt.round q < -fmt.maxFinite then negInf
  else finite (fmt.round q)

/-- An infinity times or divided by a finite number of the sign of `a`: NaN for zero. -/
def signedInf (a : ℚ) : FloatVal :=
  if a > 0 then posInf else if a < 0 then negInf else nan

/-- Negation, `-a`. -/
def neg : FloatVal → FloatVal
  | finite a => finite (-a)
  | posInf => negInf
  | negInf => posInf
  | nan => nan

/-- Sum, `a + b`: `Inf + (-Inf)` is NaN. -/
def add (fmt : FloatFormat) : FloatVal → FloatVal → FloatVal
  | finite a, finite b => ofRat fmt (a + b)
  | finite _, posInf => posInf
  | finite _, negInf => negInf
  | posInf, finite _ => posInf
  | negInf, finite _ => negInf
  | posInf, posInf => posInf
  | negInf, negInf => negInf
  | posInf, negInf => nan
  | negInf, posInf => nan
  | nan, _ => nan
  | _, nan => nan

/-- Difference, `a - b`. -/
def sub (fmt : FloatFormat) (a b : FloatVal) : FloatVal := add fmt a (neg b)

/-- Product, `a * b`: `0 * Inf` is NaN. -/
def mul (fmt : FloatFormat) : FloatVal → FloatVal → FloatVal
  | finite a, finite b => ofRat fmt (a * b)
  | finite a, posInf => signedInf a
  | finite a, negInf => signedInf (-a)
  | posInf, finite b => signedInf b
  | negInf, finite b => signedInf (-b)
  | posInf, posInf => posInf
  | negInf, negInf => posInf
  | posInf, negInf => negInf
  | negInf, posInf => negInf
  | nan, _ => nan
  | _, nan => nan

/-- Quotient, `a / b`: a non-zero number by zero is an infinity, `0 / 0` and `Inf / Inf`
are NaN. -/
def div (fmt : FloatFormat) : FloatVal → FloatVal → FloatVal
  | finite a, finite b => if b = 0 then signedInf a else ofRat fmt (a / b)
  | finite _, posInf => finite 0
  | finite _, negInf => finite 0
  | posInf, finite b => if b < 0 then negInf else posInf
  | negInf, finite b => if b < 0 then posInf else negInf
  | posInf, posInf => nan
  | negInf, negInf => nan
  | posInf, negInf => nan
  | negInf, posInf => nan
  | nan, _ => nan
  | _, nan => nan

/-- The comparison `a > b`: false when either is NaN. -/
def gt : FloatVal → FloatVal → Bool
  | finite a, finite b => decide (a > b)
  | posInf, finite _ => true
  | posInf, negInf => true
  | finite _, negInf => true
  | _, _ => false

/-- The comparison `a <= b`: false when either is NaN. -/
def le : FloatVal → FloatVal → Bool
  | finite a, finite b => decide (a ≤ b)
  | finite _, posInf => true
  | negInf, finite _ => true
  | negInf, posInf => true
  | posInf, posInf => true
  | negInf, negInf => true
  | _, _ => false

/-- The value is NaN or satisfies `0 <= a`. -/
def NanOrNonneg (a : FloatVal) : Prop := a = nan ∨ (finite 0).le a = true

end FloatVal

/-- Three components `val[0]`, `val[1]`, `val[2]` of a `Vec3f`. -/
structure Vec3f where
  x : FloatVal
  y : FloatVal
  z : FloatVal
deriving DecidableEq

namespace Vec3f

/-- The vector `Vec3f::all(a)`. -/
def all (a : FloatVal) : Vec3f := ⟨a, a, a⟩

/-- Componentwise sum, `a + b`. -/
def add (fmt : FloatFormat) (a b : Vec3f) : Vec3f :=
  ⟨a.x.add fmt b.x, a.y.add fmt b.y, a.z.add fmt b.z⟩

/-- Componentwise difference, `a - b`. -/
def sub (fmt : FloatFormat) (a b : Vec3f) : Vec3f :=
  ⟨a.x.sub fmt b.x, a.y.sub fmt b.y, a.z.sub fmt b.z⟩

/-- Negation, `-a`. -/
def neg (a : Vec3f) : Vec3f := ⟨a.x.neg, a.y.neg, a.z.neg⟩

/-- Scalar times vector, `k * a`. -/
def smul (fmt : FloatFormat) (k : FloatVal) (a : Vec3f) : Vec3f :=
  ⟨k.mul fmt a.x, k.mul fmt a.y, k.mul fmt a.z⟩

/-- Vector times scalar, `a * k`. -/
def muls (fmt : FloatFormat) (a : Vec3f) (k : FloatVal) : Vec3f :=
  ⟨a.x.mul fmt k, a.y.mul fmt k, a.z.mul fmt k⟩

/-- Componentwise product, `a.mul(b)`. -/
def mul (fmt : FloatFormat) (a b : Vec3f) : Vec3f :=
  ⟨a.x.mul fmt b.x, a.y.mul fmt b.y, a.z.mul fmt b.z⟩

/-- Dot product, `a.dot(b)`. -/
def dot (fmt : FloatFormat) (a b : Vec3f) : FloatVal :=
  ((a.x.mul fmt b.x).add fmt (a.y.mul fmt b.y)).add fmt (a.z.mul fmt b.z)

end Vec3f

/-- The functions of the C math library the code calls, on floating-point values. -/
structure Libm where
  sqrt : FloatVal → FloatVal
  powf : FloatVal → FloatVal → FloatVal

/-- Euclidean length `norm(v)` of OpenCV: the square root of `v · v`. -/
def norm (fmt : FloatFormat) (m : Libm) (v : Vec3f) : FloatVal := m.sqrt (v.dot fmt v)

/-- The function `normalize(v)` of OpenCV: `v * (nv ? 1./nv : 0.)` with `nv = norm(v)`; the
test `nv ?` fails for zero only. -/
def normalize (fmt : FloatFormat) (m : Libm) (v : Vec3f) : Vec3f :=
  let nv := norm fmt m v
  v.muls fmt (if nv = .finite 0 then .finite 0 else FloatVal.div fmt (.finite 1) nv)

/-- A primitive as a ray's `hit` sees it: `getNormal(ray)`, a function of the ray's origin,
direction and distance. -/
structure IPrim where
  getNormal : Vec3f → Vec3f → FloatVal → Vec3f

/-- The record `Ray`: origin, direction, distance and the pointer `hit` (`none` is the null
pointer). -/
structure Ray where
  org : Vec3f
  dir : Vec3f
  t : FloatVal
  hit : Option IPrim

/-- Modelled from the spec: the sampler `CSampler` (its header is not among the sources):
`getCurSample()` is a cursor advanced by the rendering loop, `getSample(index)` a pair of
numbers and `getNumSamples()` the number of samples. -/
structure CSampler where
  curSample : ℕ
  samples : ℕ → FloatVal × FloatVal
  numSamples : ℕ

/-- State of the base class `CLightOmni`, as the constructor call
`CLightOmni(intensity, p0, castShadow)` and `setOrigin` show it. -/
structure CLightOmni where
  m_intensity : Vec3f
  m_org : Vec3f
  m_castShadow : Bool

/-- The point-light base behaviour `CLightOmni::illuminate(ray)`, whose code is not among
the sources: the optional radiance and the ray as written. -/
abbrev OmniIlluminate := CLightOmni → Ray → Option Vec3f × Ray

/-- State of a `CLightArea` (the member `m_org` of `CLightArea` is `m_areaOrg`). -/
structure CLightArea extends CLightOmni where
  m_areaOrg : Vec3f
  m_edge1 : Vec3f
  m_edge2 : Vec3f
  m_area : FloatVal
  m_normal : Vec3f
  m_pSampler : CSampler

namespace CLightArea

/-- The point handed to `setOrigin` (lines 42-44):
`m_org + sample[0]*m_edge1 + sample[1]*m_edge2`. -/
def samplePoint (fmt : FloatFormat) (l : CLightArea) : Vec3f :=
  let s := l.m_pSampler.curSample
  let sample := l.m_pSampler.samples s
  (l.m_areaOrg.add fmt (l.m_edge1.smul fmt sample.1)).add fmt (l.m_edge2.smul fmt sample.2)

/-- The light after `CLightOmni::setOrigin(org)`. -/
def setOrigin (l : CLightArea) (org : Vec3f) : CLightArea :=
  { l with toCLightOmni := { l.toCLightOmni with m_org := org } }

/-- The method `illuminate(ray)` (lines 39-53): `.value()` on an empty optional throws;
`normCos = -ray.dir.dot(m_normal) / ray.t`; the radiance `m_area * normCos * light` when
`normCos > 0`, and nothing otherwise. -/
def illuminate (fmt : FloatFormat) (omni : OmniIlluminate) (l : CLightArea) (ray : Ray) :
    Except Fault (Option Vec3f × Ray × CLightArea) :=
  let l1 := l.setOrigin (l.samplePoint fmt)
  match omni l1.toCLightOmni ray with
  | (none, _) => .error .bad_optional_access
  | (some light, ray1) =>
    let normCos := FloatVal.div fmt (ray1.dir.dot fmt l1.m_normal).neg ray1.t
    if normCos.gt (.finite 0) = true then
      .ok (some (light.smul fmt (l1.m_area.mul fmt normCos)), ray1, l1)
    else .ok (none, ray1, l1)

end CLightArea

/-- The interface of a light as the shader uses it; the lights of a scene live in a store
of type `σ`. -/
structure CLight (σ : Type) where
  illuminate : σ → Ray → Except Fault (Option Vec3f × Ray × σ)
  getNumSamples : σ → ℕ

/-- The scene as the shader uses it: `getLights()` in order and `occluded(ray)`. -/
structure CScene (σ : Type) where
  getLights : List (CLight σ)
  occluded : Ray → Bool

/-- Members of a `CShaderPhong`. -/
structure CShaderPhong (σ : Type) where
  m_scene : CScene σ
  m_color : Vec3f
  m_ka : FloatVal
  m_kd : FloatVal
  m_ks : FloatVal
  m_ke : FloatVal

/-- Modelled from the spec: the flat-colour base behaviour `CShaderFlat::shade(ray)` (its
header is not among the sources) gives the colour the constructor hands to
`CShaderFlat(color)`. -/
def CShaderFlat.shade {σ : Type} (sh : CShaderPhong σ) (_ray : Ray) : Vec3f := sh.m_color

namespace CShaderPhong

variable {σ : Type}

/-- Body of `if (lightIntensity) { ... }` (lines 59-74): the new value of `sampleLight`. -/
def sampleBody (fmt : FloatFormat) (m : Libm) (sh : CShaderPhong σ)
    (normal reflect color : Vec3f) (shadow : Ray) (lightIntensity : Vec3f)
    (sampleLight : Vec3f) : Vec3f :=
  let cosLightNormal := shadow.dir.dot fmt normal
  if cosLightNormal.gt (.finite 0) = true ∧ sh.m_scene.occluded shadow = true then
    sampleLight
  else
    let sampleLight1 :=
      if cosLightNormal.gt (.finite 0) = true then
        let diffuseColor := color.smul fmt sh.m_kd
        sampleLight.add fmt ((diffuseColor.muls fmt cosLightNormal).mul fmt lightIntensity)
      else sampleLight
    let cosLightReflect := shadow.dir.dot fmt reflect
    if cosLightReflect.gt (.finite 0) = true then
      let specularColor := (Vec3f.all (.finite 1)).smul fmt sh.m_ks
      sampleLight1.add fmt
        ((specularColor.muls fmt (m.powf cosLightReflect sh.m_ke)).mul fmt lightIntensity)
    else sampleLight1

/-- The loop `for (size_t s = 0; s < sampleCount; s++)` (lines 55-76), `k` iterations
to go. -/
def sampleLoop (fmt : FloatFormat) (m : Libm) (sh : CShaderPhong σ) (pLight : CLight σ)
    (normal reflect color : Vec3f) :
    ℕ → σ → Ray → Vec3f → Except Fault (σ × Ray × Vec3f)
  | 0, w, shadow, sampleLight => .ok (w, shadow, sampleLight)
  | k + 1, w, shadow, sampleLight =>
    match pLight.illuminate w shadow with
    | .error e => .error e
    | .ok (none, shadow1, w1) =>
      sampleLoop fmt m sh pLight normal reflect color k w1 shadow1 sampleLight
    | .ok (some lightIntensity, shadow1, w1) =>
      sampleLoop fmt m sh pLight normal reflect color k w1 shadow1
        (sampleBody fmt m sh normal reflect color shadow1 lightIntensity sampleLight)

/-- The loop `for (auto pLight : m_scene.getLights())` (lines 51-78) over the lights that
are left; line 77 is `res += (1.0f/sampleCount) * sampleLight`. -/
def lightLoop (fmt : FloatFormat) (m : Libm) (sh : CShaderPhong σ)
    (normal reflect color : Vec3f) :
    List (CLight σ) → σ → Ray → Vec3f → Except Fault Vec3f
  | [], _, _, res => .ok res
  | pLight :: rest, w, shadow, res =>
    let sampleLight := Vec3f.all (.finite 0)
    let sampleCount := pLight.getNumSamples w
    match sampleLoop fmt m sh pLight normal reflect color sampleCount w shadow sampleLight with
    | .error e => .error e
    | .ok (w1, shadow1, sampleLight1) =>
      lightLoop fmt m sh normal reflect color rest w1 shadow1
        (res.add fmt
          (sampleLight1.smul fmt
            (FloatVal.div fmt (.finite 1) (FloatVal.ofRat fmt (sampleCount : ℚ)))))

/-- The final loop `for (int i = 0; i < 3; i++) if (res.val[i] > 1) res.val[i] = 1;`
(lines 80-81). -/
def clamp (res : Vec3f) : Vec3f :=
  ⟨if res.x.gt (.finite 1) = true then .finite 1 else res.x,
   if res.y.gt (.finite 1) = true then .finite 1 else res.y,
   if res.z.gt (.finite 1) = true then .finite 1 else res.z⟩

/-- The corrected shading normal (lines 30-34). -/
def shadingNormal (fmt : FloatFormat) (n dir : Vec3f) : Vec3f :=
  if (n.dot fmt dir).gt (.finite 0) = true then n.neg else n

/-- The reflection vector (line 37). -/
def reflection (fmt : FloatFormat) (m : Libm) (normal dir : Vec3f) : Vec3f :=
  normalize fmt m
    (dir.sub fmt (normal.smul fmt (FloatVal.mul fmt (.finite 2) (normal.dot fmt dir))))

/-- The ambient term (lines 40-44). -/
def ambient (fmt : FloatFormat) (sh : CShaderPhong σ) (color : Vec3f) : Vec3f :=
  let ambientIntensity : Vec3f := ⟨.finite 1, .finite 1, .finite 1⟩
  let ambientColor := color.smul fmt sh.m_ka
  ambientColor.mul fmt ambientIntensity

/-- The method `shade(ray)` (lines 27-84); `w` is the store of the lights at the call and
`shadow0` the default-constructed `Ray shadow;`. -/
def shade (fmt : FloatFormat) (m : Libm) (sh : CShaderPhong σ) (w : σ) (shadow0 : Ray)
    (ray : Ray) : Except Fault Vec3f :=
  match ray.hit with
  | none => .error .null_hit
  | some prim =>
    let normal := shadingNormal fmt (prim.getNormal ray.org ray.dir ray.t) ray.dir
    let reflect := reflection fmt m normal ray.dir
    let color := CShaderFlat.shade sh ray
    let res := ambient fmt sh color
    let shadow : Ray := { shadow0 with org := ray.org.add fmt (ray.dir.smul fmt ray.t) }
    match lightLoop fmt m sh normal reflect color sh.m_scene.getLights w shadow res with
    | .error e => .error e
    | .ok res1 => .ok (clamp res1)

end CShaderPhong

/-- An area light as a light of a scene whose store is that light. -/
def CLightArea.toCLight (fmt : FloatFormat) (omni : OmniIlluminate) : CLight CLightArea where
  illuminate := fun l ray => CLightArea.illuminate fmt omni l ray
  getNumSamples := fun l => l.m_pSampler.numSamples

/-! ### Concrete instances, for evaluating the definitions -/

/-- The range of binary32 (largest finite number `(2^24 - 1) · 2^104`), finite results
taken as they are: the evaluations below meet only small integers, halves and powers of
two, which binary32 holds exactly. -/
def exFormat : FloatFormat := ⟨(2 ^ 24 - 1) * 2 ^ 104, fun q => q⟩

/-- A math library for evaluation: on finite values the square root `ratSqrt` (NaN below
zero) and the power with the exponent rounded down to a natural number. -/
def exLibm : Libm where
  sqrt := fun a =>
    match a with
    | .finite q => if q < 0 then .nan else .finite (ratSqrt q)
    | .posInf => .posInf
    | .negInf => .nan
    | .nan => .nan
  powf := fun b e =>
    match b, e with
    | .finite b, .finite e => FloatVal.ofRat exFormat (b ^ (Int.toNat ⌊e⌋))
    | _, _ => .nan

/-- The vector of three finite components. -/
def vec (x y z : ℚ) : Vec3f := ⟨.finite x, .finite y, .finite z⟩

/-- A flat primitive whose normal is `n` wherever it is hit. -/
def exPrim (n : Vec3f) : IPrim := ⟨fun _ _ _ => n⟩

/-- A default-constructed ray for evaluation. -/
def exRay0 : Ray := ⟨vec 0 0 0, vec 0 0 0, .finite 0, none⟩

/-- A ray that hits the plane `z = 0` (normal `(0,0,1)`) at the origin, straight from
above. -/
def exRay : Ray := ⟨vec 0 0 1, vec 0 0 (-1), .finite 1, some (exPrim (vec 0 0 1))⟩

/-- A light for evaluation (store `Unit`): every call reports radiance `rad` and writes
direction `d` and distance `t`. -/
def exLight (rad d : Vec3f) (t : FloatVal) (n : ℕ) : CLight Unit where
  illuminate := fun _ ray => .ok (some rad, { ray with dir := d, t := t }, ())
  getNumSamples := fun _ => n

/-- A shader of colour `color` and coefficients `ka`, `kd`, `ks` (`ke = 1`) in an
unoccluded scene whose one light, of one sample and radiance `rad`, lies straight above. -/
def exShader (color : Vec3f) (ka kd ks : ℚ) (rad : Vec3f) : CShaderPhong Unit :=
  ⟨⟨[exLight rad (vec 0 0 1) (.finite 1) 1], fun _ => false⟩, color,
    .finite ka, .finite kd, .finite ks, .finite 1⟩

/-- A point light for evaluation that reports `rad` and writes direction `d` and
distance `t`, whatever the ray. -/
def exOmniFixed (rad : Option Vec3f) (d : Vec3f) (t : FloatVal) : OmniIlluminate :=
  fun _ ray => (rad, { ray with dir := d, t := t })

/-- An area light for evaluation: the unit square with corners `(0,0,1)`, `(0,1,1)`,
`(1,1,1)`, `(1,0,1)`, facing down (area 1, normal `(0,0,-1)`), with a one-sample sampler
whose sample is `(0,0)`. -/
def exAreaLight : CLightArea :=
  { m_intensity := vec 1 1 1, m_org := vec 0 0 1, m_castShadow := true,
    m_areaOrg := vec 0 0 1, m_edge1 := vec 0 1 0, m_edge2 := vec 1 0 0,
    m_area := .finite 1, m_normal := vec 0 0 (-1),
    m_pSampler := ⟨0, fun _ => (.finite 0, .finite 0), 1⟩ }

end Ieee

/-! ## Vector arithmetic -/

namespace Vec3f

@[simp] theorem add_x (a b : Vec3f) : (a + b).x = a.x + b.x := rfl
@[simp] theorem add_y (a b : Vec3f) : (a + b).y = a.y + b.y := rfl
@[simp] theorem add_z (a b : Vec3f) : (a + b).z = a.z + b.z := rfl
@[simp] theorem sub_x (a b : Vec3f) : (a - b).x = a.x - b.x := rfl
@[simp] theorem sub_y (a b : Vec3f) : (a - b).y = a.y - b.y := rfl
@[simp] theorem sub_z (a b : Vec3f) : (a - b).z = a.z - b.z := rfl
@[simp] theorem neg_x (a : Vec3f) : (-a).x = -a.x := rfl
@[simp] theorem neg_y (a : Vec3f) : (-a).y = -a.y := rfl
@[simp] theorem neg_z (a : Vec3f) : (-a).z = -a.z := rfl
@[simp] theorem smul_x (k : ℚ) (a : Vec3f) : (k * a).x = k * a.x := rfl
@[simp] theorem smul_y (k : ℚ) (a : Vec3f) : (k * a).y = k * a.y := rfl
@[simp] theorem smul_z (k : ℚ) (a : Vec3f) : (k * a).z = k * a.z := rfl
@[simp] theorem muls_x (a : Vec3f) (k : ℚ) : (a * k).x = a.x * k := rfl
@[simp] theorem muls_y (a : Vec3f) (k : ℚ) : (a * k).y = a.y * k := rfl
@[simp] theorem muls_z (a : Vec3f) (k : ℚ) : (a * k).z = a.z * k := rfl
@[simp] theorem mul_x (a b : Vec3f) : (a.mul b).x = a.x * b.x := rfl
@[simp] theorem mul_y (a b : Vec3f) : (a.mul b).y = a.y * b.y := rfl
@[simp] theorem mul_z (a b : Vec3f) : (a.mul b).z = a.z * b.z := rfl
@[simp] theorem all_x (a : ℚ) : (all a).x = a := rfl
@[simp] theorem all_y (a : ℚ) : (all a).y = a := rfl
@[simp] theorem all_z (a : ℚ) : (all a).z = a := rfl

theorem dot_neg_left (a b : Vec3f) : (-a).dot b = -(a.dot b) := by
  simp only [dot, neg_x, neg_y, neg_z]; ring

theorem add_zero_all (a : Vec3f) : a + all 0 = a := by
  ext <;> simp

theorem dot_self_nonneg (a : Vec3f) : 0 ≤ a.dot a := by
  simp only [dot]
  exact add_nonneg (add_nonneg (mul_self_nonneg _) (mul_self_nonneg _)) (mul_self_nonneg _)

end Vec3f

namespace CShaderPhong

variable {σ : Type}

/-! ## The clamp and the ambient term -/

theorem clamp_eq_min (v : Vec3f) : clamp v = ⟨min v.x 1, min v.y 1, min v.z 1⟩ := by
  ext <;> simp only [clamp] <;> split_ifs with h <;>
    first
      | exact (min_eq_right (le_of_lt h)).symm
      | exact (min_eq_left (not_lt.mp h)).symm

theorem clamp_of_le (v : Vec3f) (hx : v.x ≤ 1) (hy : v.y ≤ 1) (hz : v.z ≤ 1) : clamp v = v := by
  ext <;> simp only [clamp] <;> split_ifs <;> first | rfl | linarith

theorem ambient_eq (sh : CShaderPhong σ) (color : Vec3f) : ambient sh color = sh.m_ka * color := by
  ext <;> simp [ambient]

/-! ## The loops return when the lights do -/

theorem sampleLoop_ok (m : Libm) (sh : CShaderPhong σ) (pLight : CLight σ)
    (normal reflect color : Vec3f)
    (hl : ∀ w r, ∃ v, pLight.illuminate w r = .ok v) :
    ∀ (k : ℕ) (w : σ) (shadow : Ray) (acc : Vec3f),
      ∃ v, sampleLoop m sh pLight normal reflect color k w shadow acc = .ok v := by
  intro k
  induction k with
  | zero => intro w shadow acc; exact ⟨_, rfl⟩
  | succ k ih =>
    intro w shadow acc
    obtain ⟨⟨o, r1, w1⟩, hv⟩ := hl w shadow
    cases o with
    | none => simp only [sampleLoop, hv]; exact ih w1 r1 acc
    | some L => simp only [sampleLoop, hv]; exact ih w1 r1 _

/-! ## Claims -/

/-- C2 (as stated, refuted): with no lights, `ka = 2` and a white surface `shade` returns
`(1, 1, 1)`, not the ambient term `ka · baseColor = (2, 2, 2)`. -/
theorem shade_no_lights_not_ambient :
    exNoLightShader.m_scene.getLights = [] ∧
    shade exLibm exNoLightShader () exRay0 exRay = .ok ⟨1, 1, 1⟩ ∧
    exNoLightShader.m_ka * CShaderFlat.shade exNoLightShader exRay = (⟨2, 2, 2⟩ : Vec3f) ∧
    shade exLibm exNoLightShader () exRay0 exRay
      ≠ .ok (exNoLightShader.m_ka * CShaderFlat.shade exNoLightShader exRay) := by
  refine ⟨rfl, ?_, ?_, ?_⟩ <;>
    norm_num [shade, shadeUnclamped, exNoLightShader, exRay, exRay0, exPrim, lightLoop,
      ambient, CShaderFlat.shade, clamp, Vec3f.ext_iff]

/-- C2 (amended): with zero lights in the scene, for every ray with a hit, `shade` returns
the ambient term clamped from above, `min (ka · baseColor) 1` in each component; it is
exactly `ka · baseColor` when no component of that exceeds 1. -/
theorem shade_no_lights (m : Libm) (sh : CShaderPhong σ) (w : σ) (shadow0 ray : Ray)
    (hl : sh.m_scene.getLights = []) (hhit : ray.hit ≠ none) :
    shade m sh w shadow0 ray
        = .ok ⟨min (sh.m_ka * (CShaderFlat.shade sh ray).x) 1,
               min (sh.m_ka * (CShaderFlat.shade sh ray).y) 1,
               min (sh.m_ka * (CShaderFlat.shade sh ray).z) 1⟩ ∧
    (sh.m_ka * (CShaderFlat.shade sh ray).x ≤ 1 → sh.m_ka * (CShaderFlat.shade sh ray).y ≤ 1 →
      sh.m_ka * (CShaderFlat.shade sh ray).z ≤ 1 →
      shade m sh w shadow0 ray = .ok (sh.m_ka * CShaderFlat.shade sh ray)) := by
  obtain ⟨prim, hp⟩ := Option.ne_none_iff_exists'.mp hhit
  have h : shade m sh w shadow0 ray = .ok (clamp (sh.m_ka * CShaderFlat.shade sh ray)) := by
    simp only [shade, shadeUnclamped, hp, hl, lightLoop, ambient_eq]
  refine ⟨?_, ?_⟩
  · rw [h, clamp_eq_min]; rfl
  · intro hx hy hz
    rw [h, clamp_of_le _ hx hy hz]

/-- C2 (witness): a dim surface without lights. -/
theorem shade_no_lights_witness :
    exDimNoLightShader.m_scene.getLights = [] ∧ exRay.hit ≠ none ∧
    (shade exLibm exDimNoLightShader () exRay0 exRay
        = .ok ⟨min (exDimNoLightShader.m_ka * (CShaderFlat.shade exDimNoLightShader exRay).x) 1,
               min (exDimNoLightShader.m_ka * (CShaderFlat.shade exDimNoLightShader exRay).y) 1,
               min (exDimNoLightShader.m_ka * (CShaderFlat.shade exDimNoLightShader exRay).z) 1⟩ ∧
      (exDimNoLightShader.m_ka * (CShaderFlat.shade exDimNoLightShader exRay).x ≤ 1 →
        exDimNoLightShader.m_ka * (CShaderFlat.shade exDimNoLightShader exRay).y ≤ 1 →
        exDimNoLightShader.m_ka * (CShaderFlat.shade exDimNoLightShader exRay).z ≤ 1 →
        shade exLibm exDimNoLightShader () exRay0 exRay
          = .ok (exDimNoLightShader.m_ka * CShaderFlat.shade exDimNoLightShader exRay))) :=
  ⟨rfl, by simp [exRay],
   shade_no_lights exLibm exDimNoLightShader () exRay0 exRay rfl (by simp [exRay])⟩

/-! ## Samples that add nothing -/

theorem sampleBody_occluded (m : Libm) (sh : CShaderPhong σ) (normal reflect color : Vec3f)
    (shadow : Ray) (L acc : Vec3f) (hcos : 0 < shadow.dir.dot normal)
    (hocc : sh.m_scene.occluded shadow = true) :
    sampleBody m sh normal reflect color shadow L acc = acc := by
  simp [sampleBody, hcos, hocc]

end CShaderPhong

namespace CLightArea

/-! ## The area light -/

theorem ratSqrt_nonneg (q : ℚ) : 0 ≤ ratSqrt q := by
  unfold ratSqrt
  positivity

theorem illuminate_of_base (omni : OmniIlluminate) (l : CLightArea) (ray ray1 : Ray) (L : Vec3f)
    (hbase : omni (l.setOrigin l.samplePoint).toCLightOmni ray = (some L, ray1))
    (ht : ray1.t ≠ 0) :
    illuminate omni l ray
      = if -(ray1.dir.dot l.m_normal) / ray1.t > 0 then
          .ok (some ((l.m_area * (-(ray1.dir.dot l.m_normal) / ray1.t)) * L), ray1,
            l.setOrigin l.samplePoint)
        else .ok (none, ray1, l.setOrigin l.samplePoint) := by
  simp only [illuminate, hbase, ht, if_false]
  rfl

theorem illuminate_ok_state (omni : OmniIlluminate) (l : CLightArea) (ray ray1 : Ray)
    (o : Option Vec3f) (l1 : CLightArea) (h : illuminate omni l ray = .ok (o, ray1, l1)) :
    l1 = l.setOrigin l.samplePoint := by
  unfold illuminate at h
  rcases hb : omni (l.setOrigin l.samplePoint).toCLightOmni ray with ⟨_ | L, r⟩
  · simp [hb] at h
  · simp only [hb] at h
    split_ifs at h <;> simp_all

/-- C4: when the point-light base reports a radiance `L` and leaves the ray with distance
`t > 0`, `illuminate` returns nothing if `normCos = -(ray.dir · normal) / ray.t ≤ 0` and
exactly `area · normCos · L` if `normCos > 0`; in that case every component of the result is
non-negative when every component of `L` is (the area being the norm the constructor
stores, and the square root of a non-negative number being non-negative). -/
theorem illuminate_area_weighted (m : Libm) (omni : OmniIlluminate) (l : CLightArea)
    (ray ray1 : Ray) (L : Vec3f)
    (hsqrt : ∀ q, 0 ≤ q → 0 ≤ m.sqrt q)
    (harea : l.m_area = norm m (l.m_edge1.cross l.m_edge2))
    (hbase : omni (l.setOrigin l.samplePoint).toCLightOmni ray = (some L, ray1))
    (ht : 0 < ray1.t) :
    (-(ray1.dir.dot l.m_normal) / ray1.t ≤ 0 →
      illuminate omni l ray = .ok (none, ray1, l.setOrigin l.samplePoint)) ∧
    (0 < -(ray1.dir.dot l.m_normal) / ray1.t →
      illuminate omni l ray
        = .ok (some ((l.m_area * (-(ray1.dir.dot l.m_normal) / ray1.t)) * L), ray1,
            l.setOrigin l.samplePoint) ∧
      (0 ≤ L.x → 0 ≤ L.y → 0 ≤ L.z →
        0 ≤ ((l.m_area * (-(ray1.dir.dot l.m_normal) / ray1.t)) * L).x ∧
        0 ≤ ((l.m_area * (-(ray1.dir.dot l.m_normal) / ray1.t)) * L).y ∧
        0 ≤ ((l.m_area * (-(ray1.dir.dot l.m_normal) / ray1.t)) * L).z)) := by
  have h := illuminate_of_base omni l ray ray1 L hbase (ne_of_gt ht)
  refine ⟨fun hle => ?_, fun hpos => ⟨?_, fun hx hy hz => ?_⟩⟩
  · rw [h, if_neg (not_lt.mpr hle)]
  · rw [h, if_pos hpos]
  · have ha : 0 ≤ l.m_area := by
      rw [harea]
      exact hsqrt _ (Vec3f.dot_self_nonneg _)
    have hk : 0 ≤ l.m_area * (-(ray1.dir.dot l.m_normal) / ray1.t) :=
      mul_nonneg ha (le_of_lt hpos)
    exact ⟨mul_nonneg hk hx, mul_nonneg hk hy, mul_nonneg hk hz⟩

/-- C4 (witness): the unit square light one unit above the shading point. -/
theorem illuminate_area_weighted_witness :
    illuminate exOmni exAreaLight exShadow
      = .ok (some ⟨1, 1, 1⟩, ⟨⟨0, 0, 0⟩, ⟨0, 0, 1⟩, 1, none⟩,
          exAreaLight.setOrigin exAreaLight.samplePoint) := by
  have hbase : exOmni (exAreaLight.setOrigin exAreaLight.samplePoint).toCLightOmni exShadow
      = (some ⟨1, 1, 1⟩, ⟨⟨0, 0, 0⟩, ⟨0, 0, 1⟩, 1, none⟩) := by
    norm_num [exOmni, exAreaLight, new, setOrigin, CLightOmni.setOrigin, samplePoint,
      CSampler.getCurSample, CSampler.getSample, exShadow, normalize, norm, exLibm, ratSqrt,
      Vec3f.dot, Vec3f.ext_iff]
  have h := (illuminate_area_weighted exLibm exOmni exAreaLight exShadow
    ⟨⟨0, 0, 0⟩, ⟨0, 0, 1⟩, 1, none⟩ ⟨1, 1, 1⟩ (fun q _ => ratSqrt_nonneg q) rfl hbase
    (by norm_num)).2
    (by norm_num [exAreaLight, new, normalize, norm, exLibm, ratSqrt, Vec3f.dot, Vec3f.cross])
  rw [h.1]
  norm_num [exAreaLight, new, normalize, norm, exLibm, ratSqrt, Vec3f.dot, Vec3f.cross,
    Vec3f.ext_iff, setOrigin]

/-- C10 (the code at the failing input): the point-light base reports no radiance, and
`illuminate` does not return an empty optional: `.value()` throws
`std::bad_optional_access`. -/
theorem illuminate_base_nothing_throws :
    illuminate (exOmniFixed none ⟨0, 0, 1⟩ 1) exAreaLight exShadow
      = .error .bad_optional_access := by
  rfl

end CLightArea

namespace CShaderPhong

variable {σ : Type}

/-! ## The normal correction -/

/-- C5: when the hit normal `n` satisfies `n · ray.dir > 0`, `shade` gives the same result
for the ray whose hit reports `-n` and is otherwise the same: the corrected normal (it is
`-n` for both), the reflection vector, the value before the clamp (hence every
sample's cosines) and the final colour coincide. -/
theorem shade_backfacing_eq_frontfacing (m : Libm) (sh : CShaderPhong σ) (w : σ)
    (shadow0 ray : Ray) (prim prim1 : IPrim)
    (hhit : ray.hit = some prim)
    (hflip : prim1.getNormal ray.org ray.dir ray.t = -(prim.getNormal ray.org ray.dir ray.t))
    (hback : (prim.getNormal ray.org ray.dir ray.t).dot ray.dir > 0) :
    shadingNormal (prim.getNormal ray.org ray.dir ray.t) ray.dir
        = -(prim.getNormal ray.org ray.dir ray.t) ∧
    shadingNormal (prim1.getNormal ray.org ray.dir ray.t) ray.dir
        = -(prim.getNormal ray.org ray.dir ray.t) ∧
    reflection m (shadingNormal (prim.getNormal ray.org ray.dir ray.t) ray.dir) ray.dir
        = reflection m (shadingNormal (prim1.getNormal ray.org ray.dir ray.t) ray.dir) ray.dir ∧
    shadeUnclamped m sh w shadow0 ray
        = shadeUnclamped m sh w shadow0 { ray with hit := some prim1 } ∧
    shade m sh w shadow0 ray = shade m sh w shadow0 { ray with hit := some prim1 } := by
  have h1 : shadingNormal (prim.getNormal ray.org ray.dir ray.t) ray.dir
      = -(prim.getNormal ray.org ray.dir ray.t) := by
    simp only [shadingNormal, if_pos hback]
  have h2 : shadingNormal (prim1.getNormal ray.org ray.dir ray.t) ray.dir
      = -(prim.getNormal ray.org ray.dir ray.t) := by
    have hneg : ¬ (-(prim.getNormal ray.org ray.dir ray.t)).dot ray.dir > 0 := by
      rw [Vec3f.dot_neg_left]
      exact not_lt.mpr (le_of_lt (neg_neg_of_pos hback))
    simp only [shadingNormal, hflip, if_neg hneg]
  have h3 : shadeUnclamped m sh w shadow0 ray
      = shadeUnclamped m sh w shadow0 { ray with hit := some prim1 } := by
    simp only [shadeUnclamped, hhit, h1, h2, CShaderFlat.shade]
  refine ⟨h1, h2, by rw [h1, h2], h3, ?_⟩
  simp only [shade, h3]

/-- C5 (witness): the plane `z = 0` hit from above, its normal reported as `(0,0,-1)`
(pointing away) and as `(0,0,1)`. -/
theorem shade_backfacing_eq_frontfacing_witness :
    shade exLibm exBrightShader () exRay0 { exRay with hit := some (exPrim ⟨0, 0, -1⟩) }
      = shade exLibm exBrightShader () exRay0
          { ({ exRay with hit := some (exPrim ⟨0, 0, -1⟩) } : Ray) with
            hit := some (exPrim ⟨0, 0, 1⟩) } :=
  (shade_backfacing_eq_frontfacing exLibm exBrightShader () exRay0
    { exRay with hit := some (exPrim ⟨0, 0, -1⟩) } (exPrim ⟨0, 0, -1⟩) (exPrim ⟨0, 0, 1⟩) rfl
    (by simp [exPrim, Vec3f.ext_iff])
    (by norm_num [exPrim, exRay, Vec3f.dot])).2.2.2.2

/-! ## The average over the samples of a light -/

theorem sampleBody_add (m : Libm) (sh : CShaderPhong σ) (normal reflect color : Vec3f)
    (shadow : Ray) (L acc : Vec3f) :
    sampleBody m sh normal reflect color shadow L acc
      = acc + sampleBody m sh normal reflect color shadow L (Vec3f.all 0) := by
  unfold sampleBody
  ext <;> dsimp only <;> split_ifs <;> simp [add_assoc]

theorem sampleBody_withLights (m : Libm) (sh : CShaderPhong σ) (ls : List (CLight σ))
    (normal reflect color : Vec3f) (shadow : Ray) (L acc : Vec3f) :
    sampleBody m (sh.withLights ls) normal reflect color shadow L acc
      = sampleBody m sh normal reflect color shadow L acc := rfl

theorem sampleLoop_withLights (m : Libm) (sh : CShaderPhong σ) (ls : List (CLight σ))
    (pLight : CLight σ) (normal reflect color : Vec3f) :
    ∀ (k : ℕ) (w : σ) (shadow : Ray) (acc : Vec3f),
      sampleLoop m (sh.withLights ls) pLight normal reflect color k w shadow acc
        = sampleLoop m sh pLight normal reflect color k w shadow acc := by
  intro k
  induction k with
  | zero => intro w shadow acc; rfl
  | succ k ih =>
    intro w shadow acc
    simp only [sampleLoop, ih, sampleBody_withLights]

theorem lightLoop_withLights (m : Libm) (sh : CShaderPhong σ) (ls : List (CLight σ))
    (normal reflect color : Vec3f) :
    ∀ (rest : List (CLight σ)) (w : σ) (shadow : Ray) (res : Vec3f),
      lightLoop m (sh.withLights ls) normal reflect color rest w shadow res
        = lightLoop m sh normal reflect color rest w shadow res := by
  intro rest
  induction rest with
  | nil => intro w shadow res; rfl
  | cons l rest ih =>
    intro w shadow res
    simp only [lightLoop, ih, sampleLoop_withLights]

theorem shadeUnclamped_withLights (m : Libm) (sh : CShaderPhong σ) (ls : List (CLight σ))
    (w : σ) (shadow0 ray : Ray) :
    shadeUnclamped m (sh.withLights ls) w shadow0 ray
      = match ray.hit with
        | none => .error .null_hit
        | some prim =>
          lightLoop m sh (shadingNormal (prim.getNormal ray.org ray.dir ray.t) ray.dir)
            (reflection m (shadingNormal (prim.getNormal ray.org ray.dir ray.t) ray.dir) ray.dir)
            (CShaderFlat.shade sh ray) ls w { shadow0 with org := ray.org + ray.t * ray.dir }
            (ambient sh (CShaderFlat.shade sh ray)) := by
  unfold shadeUnclamped
  cases ray.hit with
  | none => rfl
  | some prim =>
    simp only [lightLoop_withLights]
    rfl

theorem average_steady (res c : Vec3f) (n : ℕ) (hn : 1 ≤ n) :
    res + (1 / (n : ℚ)) * (Vec3f.all 0 + ((n : ℕ) : ℚ) * c) = res + c := by
  have hq : (n : ℚ) ≠ 0 := by
    have : 0 < n := hn
    exact_mod_cast this.ne'
  ext <;> simp <;> field_simp

/-! ## One area light -/

theorem shadeUnclamped_one_area_light (m : Libm) (omni : OmniIlluminate)
    (sh : CShaderPhong CLightArea) (l : CLightArea) (shadow0 ray ray1 : Ray) (prim : IPrim)
    (L : Vec3f)
    (hhit : ray.hit = some prim)
    (hl : sh.m_scene.getLights = [CLightArea.toCLight omni])
    (hone : l.getNumSamples = 1)
    (hks : sh.m_ks = 0)
    (hbase : omni (l.setOrigin l.samplePoint).toCLightOmni
      { shadow0 with org := ray.org + ray.t * ray.dir } = (some L, ray1))
    (hnormCos : 0 < -(ray1.dir.dot l.m_normal) / ray1.t)
    (hcos : 0 < ray1.dir.dot (shadingNormal (prim.getNormal ray.org ray.dir ray.t) ray.dir))
    (hocc : sh.m_scene.occluded ray1 = false) :
    shadeUnclamped m sh l shadow0 ray
      = .ok (sh.m_ka * CShaderFlat.shade sh ray +
          ((sh.m_kd * CShaderFlat.shade sh ray) *
              ray1.dir.dot (shadingNormal (prim.getNormal ray.org ray.dir ray.t) ray.dir)).mul
            ((l.m_area * (-(ray1.dir.dot l.m_normal) / ray1.t)) * L)) := by
  have ht : ray1.t ≠ 0 := by
    intro h0
    rw [h0, div_zero] at hnormCos
    exact lt_irrefl _ hnormCos
  have hill := CLightArea.illuminate_of_base omni l _ ray1 L hbase ht
  rw [if_pos hnormCos] at hill
  have hn : (CLightArea.toCLight omni).getNumSamples l = 1 := hone
  have hcall : (CLightArea.toCLight omni).illuminate l
      { shadow0 with org := ray.org + ray.t * ray.dir }
      = .ok (some ((l.m_area * (-(ray1.dir.dot l.m_normal) / ray1.t)) * L), ray1,
          l.setOrigin l.samplePoint) := hill
  simp only [shadeUnclamped, hhit, hl, lightLoop, hn, sampleLoop, hcall, one_ne_zero, if_false,
    ambient_eq]
  congr 1
  unfold sampleBody
  simp only [gt_iff_lt, hcos, hocc, hks, true_and, if_true, Bool.false_eq_true, if_false]
  ext <;> dsimp only <;> split_ifs <;> simp

/-- C7: one single-sample area light, `ks = 0`, the sample unoccluded with
`cosLightNormal > 0` and `normCos > 0`: before the clamp the colour is
`ka · baseColor + kd · baseColor · cosLightNormal · (area · normCos · L)` in each component,
`L` being the radiance of the point-light base; and with the area multiplied by `c > 0`
(direction, distance and `L` as they were) the diffuse contribution is multiplied by `c`. -/
theorem shade_area_weighting (m : Libm) (omni : OmniIlluminate)
    (sh : CShaderPhong CLightArea) (l : CLightArea) (shadow0 ray ray1 : Ray) (prim : IPrim)
    (L : Vec3f)
    (hhit : ray.hit = some prim)
    (hl : sh.m_scene.getLights = [CLightArea.toCLight omni])
    (hone : l.getNumSamples = 1)
    (hks : sh.m_ks = 0)
    (hbase : omni (l.setOrigin l.samplePoint).toCLightOmni
      { shadow0 with org := ray.org + ray.t * ray.dir } = (some L, ray1))
    (hnormCos : 0 < -(ray1.dir.dot l.m_normal) / ray1.t)
    (hcos : 0 < ray1.dir.dot (shadingNormal (prim.getNormal ray.org ray.dir ray.t) ray.dir))
    (hocc : sh.m_scene.occluded ray1 = false) :
    shadeUnclamped m sh l shadow0 ray
      = .ok (sh.m_ka * CShaderFlat.shade sh ray +
          ((sh.m_kd * CShaderFlat.shade sh ray) *
              ray1.dir.dot (shadingNormal (prim.getNormal ray.org ray.dir ray.t) ray.dir)).mul
            ((l.m_area * (-(ray1.dir.dot l.m_normal) / ray1.t)) * L)) ∧
    ∀ c : ℚ, 0 < c →
      shadeUnclamped m sh { l with m_area := c * l.m_area } shadow0 ray
        = .ok (sh.m_ka * CShaderFlat.shade sh ray +
            c * (((sh.m_kd * CShaderFlat.shade sh ray) *
                ray1.dir.dot (shadingNormal (prim.getNormal ray.org ray.dir ray.t) ray.dir)).mul
              ((l.m_area * (-(ray1.dir.dot l.m_normal) / ray1.t)) * L))) := by
  refine ⟨shadeUnclamped_one_area_light m omni sh l shadow0 ray ray1 prim L hhit hl hone hks
    hbase hnormCos hcos hocc, ?_⟩
  intro c _
  rw [shadeUnclamped_one_area_light m omni sh { l with m_area := c * l.m_area } shadow0 ray ray1
    prim L hhit hl hone hks hbase hnormCos hcos hocc]
  congr 1
  ext <;> simp <;> ring

/-- C7 (witness): the unit square light straight above a white surface with normal
`(0,0,1)`, `kd = 1/2`, `ks = 0`, intensity `(1,1,1)`: before the clamp the colour is
`1/10 + 1/2` in each component. -/
theorem shade_area_weighting_witness :
    shadeUnclamped exLibm exAreaShader exAreaLight exRay0 exRay = .ok ⟨3/5, 3/5, 3/5⟩ := by
  have hbase : exOmni (exAreaLight.setOrigin exAreaLight.samplePoint).toCLightOmni
      { exRay0 with org := exRay.org + exRay.t * exRay.dir }
      = (some ⟨1, 1, 1⟩, ⟨⟨0, 0, 0⟩, ⟨0, 0, 1⟩, 1, none⟩) := by
    norm_num [exOmni, exAreaLight, CLightArea.new, CLightArea.setOrigin, CLightOmni.setOrigin,
      CLightArea.samplePoint, CSampler.getCurSample, CSampler.getSample, exRay0, exRay,
      normalize, norm, exLibm, ratSqrt, Vec3f.dot, Vec3f.ext_iff]
  have h := (shade_area_weighting exLibm exOmni exAreaShader exAreaLight exRay0 exRay
    ⟨⟨0, 0, 0⟩, ⟨0, 0, 1⟩, 1, none⟩ (exPrim ⟨0, 0, 1⟩) ⟨1, 1, 1⟩ rfl rfl rfl rfl hbase
    (by norm_num [exAreaLight, CLightArea.new, normalize, norm, exLibm, ratSqrt, Vec3f.dot,
      Vec3f.cross])
    (by norm_num [exPrim, exRay, shadingNormal, Vec3f.dot])
    rfl).1
  rw [h]
  norm_num [exAreaShader, exAreaLight, CLightArea.new, normalize, norm, exLibm, ratSqrt,
    Vec3f.dot, Vec3f.cross, Vec3f.ext_iff, CShaderFlat.shade, exPrim, exRay, shadingNormal]

end CShaderPhong

namespace CLightArea

/-! ## What a call of `illuminate` writes -/

/-- C11 (as stated, refuted): a call of `illuminate` on the light whose sample is the
centre of the square writes the origin of the inherited point light: it is `(0,0,1)` before
the call and `(1/2,1/2,1)` after it. -/
theorem illuminate_writes_base_origin :
    illuminate (exOmniFixed (some ⟨1, 1, 1⟩) ⟨0, 0, 1⟩ 1) exAreaLightMid exShadow
      = .ok (some ⟨1, 1, 1⟩, ⟨⟨0, 0, 0⟩, ⟨0, 0, 1⟩, 1, none⟩,
          exAreaLightMid.setOrigin ⟨1/2, 1/2, 1⟩) ∧
    exAreaLightMid.m_org = ⟨0, 0, 1⟩ ∧
    (exAreaLightMid.setOrigin ⟨1/2, 1/2, 1⟩).m_org = ⟨1/2, 1/2, 1⟩ ∧
    (exAreaLightMid.setOrigin ⟨1/2, 1/2, 1⟩).m_org ≠ exAreaLightMid.m_org := by
  refine ⟨?_, rfl, rfl, ?_⟩
  · norm_num [illuminate, exOmniFixed, exAreaLightMid, new, setOrigin, CLightOmni.setOrigin,
      samplePoint, CSampler.getCurSample, CSampler.getSample, exShadow, normalize, norm, exLibm,
      ratSqrt, Vec3f.dot, Vec3f.cross, Vec3f.ext_iff]
  · norm_num [exAreaLightMid, new, setOrigin, CLightOmni.setOrigin, Vec3f.ext_iff]

/-- C11 (amended): a call of `illuminate` that returns leaves `m_org`, `m_edge1`,
`m_edge2`, `m_area`, `m_normal`, the sampler and the inherited intensity and shadow flag as
they were, and writes the origin of the inherited point light: after the call it is the
sampled point `m_org + s0 · m_edge1 + s1 · m_edge2`; the ray is the one the point-light
base leaves. -/
theorem illuminate_frame (omni : OmniIlluminate) (l l1 : CLightArea) (ray ray1 : Ray)
    (o : Option Vec3f) (h : illuminate omni l ray = .ok (o, ray1, l1)) :
    l1.m_areaOrg = l.m_areaOrg ∧ l1.m_edge1 = l.m_edge1 ∧ l1.m_edge2 = l.m_edge2 ∧
    l1.m_area = l.m_area ∧ l1.m_normal = l.m_normal ∧ l1.m_pSampler = l.m_pSampler ∧
    l1.m_intensity = l.m_intensity ∧ l1.m_castShadow = l.m_castShadow ∧
    l1.m_org = l.m_areaOrg + (l.m_pSampler.getSample l.m_pSampler.getCurSample).1 * l.m_edge1
      + (l.m_pSampler.getSample l.m_pSampler.getCurSample).2 * l.m_edge2 ∧
    ray1 = (omni (l.setOrigin l.samplePoint).toCLightOmni ray).2 := by
  have hl := illuminate_ok_state omni l ray ray1 o l1 h
  subst hl
  refine ⟨rfl, rfl, rfl, rfl, rfl, rfl, rfl, rfl, rfl, ?_⟩
  unfold illuminate at h
  rcases hb : omni (l.setOrigin l.samplePoint).toCLightOmni ray with ⟨_ | L, r⟩
  · simp [hb] at h
  · simp only [hb] at h
    split_ifs at h <;> simp_all

/-- C11 (witness): the call on the light whose sample is the centre of the square. -/
theorem illuminate_frame_witness :
    (exAreaLightMid.setOrigin ⟨1/2, 1/2, 1⟩).m_normal = exAreaLightMid.m_normal ∧
    (exAreaLightMid.setOrigin ⟨1/2, 1/2, 1⟩).m_org
      = exAreaLightMid.m_areaOrg
        + (exAreaLightMid.m_pSampler.getSample exAreaLightMid.m_pSampler.getCurSample).1
          * exAreaLightMid.m_edge1
        + (exAreaLightMid.m_pSampler.getSample exAreaLightMid.m_pSampler.getCurSample).2
          * exAreaLightMid.m_edge2 := by
  have hcall : illuminate (exOmniFixed (some ⟨1, 1, 1⟩) ⟨0, 0, 1⟩ 1) exAreaLightMid exShadow
      = .ok (some ⟨1, 1, 1⟩, ⟨⟨0, 0, 0⟩, ⟨0, 0, 1⟩, 1, none⟩,
          exAreaLightMid.setOrigin ⟨1/2, 1/2, 1⟩) := by
    norm_num [illuminate, exOmniFixed, exAreaLightMid, new, setOrigin, CLightOmni.setOrigin,
      samplePoint, CSampler.getCurSample, CSampler.getSample, exShadow, normalize, norm, exLibm,
      ratSqrt, Vec3f.dot, Vec3f.cross, Vec3f.ext_iff]
  have h := illuminate_frame (exOmniFixed (some ⟨1, 1, 1⟩) ⟨0, 0, 1⟩ 1) exAreaLightMid
    (exAreaLightMid.setOrigin ⟨1/2, 1/2, 1⟩) exShadow ⟨⟨0, 0, 0⟩, ⟨0, 0, 1⟩, 1, none⟩
    (some ⟨1, 1, 1⟩) hcall
  exact ⟨h.2.2.2.2.1, h.2.2.2.2.2.2.2.2.1⟩

/-! ## The geometry of the sample -/

theorem dot_smul_left (k : ℚ) (a b : Vec3f) : (k * a).dot b = k * a.dot b := by
  simp only [Vec3f.dot, Vec3f.smul_x, Vec3f.smul_y, Vec3f.smul_z]; ring

theorem dot_muls_right (a b : Vec3f) (k : ℚ) : a.dot (b * k) = k * a.dot b := by
  simp only [Vec3f.dot, Vec3f.muls_x, Vec3f.muls_y, Vec3f.muls_z]; ring

theorem dot_sub_swap (a b c : Vec3f) : (a - b).dot c = -((b - a).dot c) := by
  simp only [Vec3f.dot, Vec3f.sub_x, Vec3f.sub_y, Vec3f.sub_z]; ring

/-- The result of `illuminate` in terms of what the point-light base gives. -/
theorem illuminate_eq (omni : OmniIlluminate) (l : CLightArea) (ray : Ray) :
    illuminate omni l ray
      = match (omni (l.setOrigin l.samplePoint).toCLightOmni ray).1 with
        | none => .error .bad_optional_access
        | some L =>
          if (omni (l.setOrigin l.samplePoint).toCLightOmni ray).2.t = 0 ∧
              -((omni (l.setOrigin l.samplePoint).toCLightOmni ray).2.dir.dot l.m_normal) > 0 then
            .error .div_by_zero
          else if -((omni (l.setOrigin l.samplePoint).toCLightOmni ray).2.dir.dot l.m_normal)
              / (omni (l.setOrigin l.samplePoint).toCLightOmni ray).2.t > 0 then
            .ok (some ((l.m_area *
                (-((omni (l.setOrigin l.samplePoint).toCLightOmni ray).2.dir.dot l.m_normal)
                  / (omni (l.setOrigin l.samplePoint).toCLightOmni ray).2.t)) * L),
              (omni (l.setOrigin l.samplePoint).toCLightOmni ray).2, l.setOrigin l.samplePoint)
          else
            .ok (none, (omni (l.setOrigin l.samplePoint).toCLightOmni ray).2,
              l.setOrigin l.samplePoint) := by
  unfold illuminate
  rcases hb : omni (l.setOrigin l.samplePoint).toCLightOmni ray with ⟨_ | L, r⟩
  · simp only [hb]
  · simp only [hb]
    rfl

/-- C16: the point-light base reports a radiance and writes the distance `t > 0` to the
sampled point `P` (so `t² = |P - ray.org|²`) and the direction `(P - ray.org) / t`.  Then
`illuminate` returns a value exactly when `(ray.org - P) · normal > 0`, `normCos` is
`(ray.org - P) · normal / t²`, and `normCos · t` is `u · normal` for the vector
`u = (ray.org - P) / t` from `P` back to the shading point, which has length 1. -/
theorem illuminate_iff_facing (omni : OmniIlluminate) (l : CLightArea) (ray ray1 : Ray)
    (L : Vec3f)
    (hbase : omni (l.setOrigin l.samplePoint).toCLightOmni ray = (some L, ray1))
    (ht : 0 < ray1.t)
    (hdist : ray1.t * ray1.t = (l.samplePoint - ray.org).dot (l.samplePoint - ray.org))
    (hdir : ray1.dir = (1 / ray1.t) * (l.samplePoint - ray.org)) :
    ((∃ v r l1, illuminate omni l ray = .ok (some v, r, l1))
      ↔ 0 < (ray.org - l.samplePoint).dot l.m_normal) ∧
    -(ray1.dir.dot l.m_normal) / ray1.t
      = (ray.org - l.samplePoint).dot l.m_normal / ray1.t ^ 2 ∧
    -(ray1.dir.dot l.m_normal) / ray1.t * ray1.t
      = ((1 / ray1.t) * (ray.org - l.samplePoint)).dot l.m_normal ∧
    ((1 / ray1.t) * (ray.org - l.samplePoint)).dot ((1 / ray1.t) * (ray.org - l.samplePoint))
      = 1 := by
  have ht0 : ray1.t ≠ 0 := ne_of_gt ht
  have hcos : -(ray1.dir.dot l.m_normal) / ray1.t
      = (ray.org - l.samplePoint).dot l.m_normal / ray1.t ^ 2 := by
    rw [hdir, dot_smul_left, dot_sub_swap l.samplePoint ray.org]
    field_simp
    left
    ring
  have hpos : 0 < -(ray1.dir.dot l.m_normal) / ray1.t
      ↔ 0 < (ray.org - l.samplePoint).dot l.m_normal := by
    rw [hcos]
    constructor
    · intro h
      have := mul_pos h (pow_pos ht 2)
      rwa [div_mul_cancel₀ _ (pow_ne_zero 2 ht0)] at this
    · intro h
      exact div_pos h (pow_pos ht 2)
  refine ⟨?_, hcos, ?_, ?_⟩
  · rw [illuminate_of_base omni l ray ray1 L hbase ht0]
    constructor
    · rintro ⟨v, r, l1, h⟩
      by_contra hn
      rw [if_neg (fun hp => hn (hpos.mp hp))] at h
      simp at h
    · intro h
      rw [if_pos (hpos.mpr h)]
      exact ⟨_, _, _, rfl⟩
  · rw [hcos, dot_smul_left]
    field_simp
    ring
  · have hswap : (ray.org - l.samplePoint).dot (ray.org - l.samplePoint)
        = (l.samplePoint - ray.org).dot (l.samplePoint - ray.org) := by
      simp only [Vec3f.dot, Vec3f.sub_x, Vec3f.sub_y, Vec3f.sub_z]; ring
    have hsm : ∀ (k : ℚ) (a : Vec3f), (k * a).dot (k * a) = k * k * a.dot a := by
      intro k a
      simp only [Vec3f.dot, Vec3f.smul_x, Vec3f.smul_y, Vec3f.smul_z]; ring
    rw [hsm, hswap, ← hdist]
    field_simp

/-- C16 (witness): the unit square light one unit above the shading point, which lies on
the side the light faces. -/
theorem illuminate_iff_facing_witness :
    (∃ v r l1, illuminate exOmni exAreaLight exShadow = .ok (some v, r, l1))
      ↔ 0 < (exShadow.org - exAreaLight.samplePoint).dot exAreaLight.m_normal := by
  have hbase : exOmni (exAreaLight.setOrigin exAreaLight.samplePoint).toCLightOmni exShadow
      = (some ⟨1, 1, 1⟩, ⟨⟨0, 0, 0⟩, ⟨0, 0, 1⟩, 1, none⟩) := by
    norm_num [exOmni, exAreaLight, new, setOrigin, CLightOmni.setOrigin, samplePoint,
      CSampler.getCurSample, CSampler.getSample, exShadow, normalize, norm, exLibm, ratSqrt,
      Vec3f.dot, Vec3f.ext_iff]
  exact (illuminate_iff_facing exOmni exAreaLight exShadow ⟨⟨0, 0, 0⟩, ⟨0, 0, 1⟩, 1, none⟩
    ⟨1, 1, 1⟩ hbase (by norm_num)
    (by norm_num [exAreaLight, new, samplePoint, CSampler.getCurSample, CSampler.getSample,
      exShadow, Vec3f.dot])
    (by norm_num [exAreaLight, new, samplePoint, CSampler.getCurSample, CSampler.getSample,
      exShadow, Vec3f.ext_iff])).1

theorem dot_cross_combination (a b : Vec3f) (s t : ℚ) :
    (s * a + t * b).dot (a.cross b) = 0 := by
  simp only [Vec3f.dot, Vec3f.cross, Vec3f.add_x, Vec3f.add_y, Vec3f.add_z, Vec3f.smul_x,
    Vec3f.smul_y, Vec3f.smul_z]
  ring

/-- C17: for the light constructed from `p0, p1, p2, p3` and every sampler state,
`illuminate` hands the point-light base the origin `P = p0 + s0 · (p1 - p0) + s1 · (p3 - p0)`,
`(s0, s1)` being the sampler's sample at its current index (the base is consulted with
that origin only, and it is the origin the light holds after the call); `P - p0` is
orthogonal to the emitter normal, and with `s0` and `s1` in `[0, 1]` its coordinates along
the two edges are in `[0, 1]`. -/
theorem illuminate_sample_point (m : Libm) (intensity p0 p1 p2 p3 : Vec3f) (smp : CSampler)
    (castShadow : Bool)
    (hs0 : 0 ≤ (smp.getSample smp.getCurSample).1) (hs0' : (smp.getSample smp.getCurSample).1 ≤ 1)
    (hs1 : 0 ≤ (smp.getSample smp.getCurSample).2) (hs1' : (smp.getSample smp.getCurSample).2 ≤ 1) :
    (new m intensity p0 p1 p2 p3 smp castShadow).samplePoint
      = p0 + (smp.getSample smp.getCurSample).1 * (p1 - p0)
          + (smp.getSample smp.getCurSample).2 * (p3 - p0) ∧
    (∀ (omni omni1 : OmniIlluminate) (ray : Ray),
      omni ⟨intensity, p0 + (smp.getSample smp.getCurSample).1 * (p1 - p0)
          + (smp.getSample smp.getCurSample).2 * (p3 - p0), castShadow⟩ ray
        = omni1 ⟨intensity, p0 + (smp.getSample smp.getCurSample).1 * (p1 - p0)
          + (smp.getSample smp.getCurSample).2 * (p3 - p0), castShadow⟩ ray →
      illuminate omni (new m intensity p0 p1 p2 p3 smp castShadow) ray
        = illuminate omni1 (new m intensity p0 p1 p2 p3 smp castShadow) ray) ∧
    (∀ (omni : OmniIlluminate) (ray ray1 : Ray) (o : Option Vec3f) (l1 : CLightArea),
      illuminate omni (new m intensity p0 p1 p2 p3 smp castShadow) ray = .ok (o, ray1, l1) →
      l1.m_org = p0 + (smp.getSample smp.getCurSample).1 * (p1 - p0)
          + (smp.getSample smp.getCurSample).2 * (p3 - p0)) ∧
    ((new m intensity p0 p1 p2 p3 smp castShadow).samplePoint - p0).dot
      ((p1 - p0).cross (p3 - p0)) = 0 ∧
    ((new m intensity p0 p1 p2 p3 smp castShadow).samplePoint - p0).dot
      (new m intensity p0 p1 p2 p3 smp castShadow).m_normal = 0 ∧
    ∃ a b : ℚ, 0 ≤ a ∧ a ≤ 1 ∧ 0 ≤ b ∧ b ≤ 1 ∧
      (new m intensity p0 p1 p2 p3 smp castShadow).samplePoint - p0
        = a * (p1 - p0) + b * (p3 - p0) := by
  have hdiff : (new m intensity p0 p1 p2 p3 smp castShadow).samplePoint - p0
      = (smp.getSample smp.getCurSample).1 * (p1 - p0)
        + (smp.getSample smp.getCurSample).2 * (p3 - p0) := by
    ext <;> simp [samplePoint, new] <;> ring
  have horth : ((new m intensity p0 p1 p2 p3 smp castShadow).samplePoint - p0).dot
      ((p1 - p0).cross (p3 - p0)) = 0 := by
    rw [hdiff]
    exact dot_cross_combination _ _ _ _
  refine ⟨rfl, ?_, ?_, horth, ?_, ⟨_, _, hs0, hs0', hs1, hs1', hdiff⟩⟩
  · intro omni omni1 ray h
    have h1 : omni ((new m intensity p0 p1 p2 p3 smp castShadow).setOrigin
          (new m intensity p0 p1 p2 p3 smp castShadow).samplePoint).toCLightOmni ray
        = omni1 ((new m intensity p0 p1 p2 p3 smp castShadow).setOrigin
          (new m intensity p0 p1 p2 p3 smp castShadow).samplePoint).toCLightOmni ray := h
    rw [illuminate_eq, illuminate_eq, h1]
  · intro omni ray ray1 o l1 h
    rw [illuminate_ok_state omni _ ray ray1 o l1 h]
    rfl
  · have hn : (new m intensity p0 p1 p2 p3 smp castShadow).m_normal
        = normalize m ((p1 - p0).cross (p3 - p0)) := rfl
    rw [hn]
    unfold normalize
    rw [dot_muls_right, horth, mul_zero]

/-- C17 (witness): the light whose sample is `(1/2, 1/2)`; the sampled point is the centre
of the square. -/
theorem illuminate_sample_point_witness :
    exAreaLightMid.samplePoint = (⟨1/2, 1/2, 1⟩ : Vec3f) := by
  have h := (illuminate_sample_point exLibm ⟨1, 1, 1⟩ ⟨0, 0, 1⟩ ⟨0, 1, 1⟩ ⟨1, 1, 1⟩ ⟨1, 0, 1⟩
    ⟨0, fun _ => (1/2, 1/2), 1⟩ true
    (by norm_num [CSampler.getSample]) (by norm_num [CSampler.getSample])
    (by norm_num [CSampler.getSample]) (by norm_num [CSampler.getSample])).1
  rw [exAreaLightMid, h]
  norm_num [CSampler.getSample, CSampler.getCurSample, Vec3f.ext_iff]

/-- C20: the corner `p2` is not used: lights constructed with the same intensity, `p0`,
`p1`, `p3` and sampler and different `p2` are the same light (origin, edges `p1 - p0` and
`p3 - p0`, area, normal), and `illuminate`, `getNormal` and `getNumSamples` give the same on
both for every input. -/
theorem new_ignores_p2 (m : Libm) (intensity p0 p1 p2 q2 p3 : Vec3f) (smp : CSampler)
    (castShadow : Bool) :
    new m intensity p0 p1 p2 p3 smp castShadow = new m intensity p0 p1 q2 p3 smp castShadow ∧
    (new m intensity p0 p1 p2 p3 smp castShadow).m_edge1 = p1 - p0 ∧
    (new m intensity p0 p1 p2 p3 smp castShadow).m_edge2 = p3 - p0 ∧
    (∀ (omni : OmniIlluminate) (ray : Ray),
      illuminate omni (new m intensity p0 p1 p2 p3 smp castShadow) ray
        = illuminate omni (new m intensity p0 p1 q2 p3 smp castShadow) ray) ∧
    (∀ position : Vec3f,
      (new m intensity p0 p1 p2 p3 smp castShadow).getNormal position
        = (new m intensity p0 p1 q2 p3 smp castShadow).getNormal position) ∧
    (new m intensity p0 p1 p2 p3 smp castShadow).getNumSamples
      = (new m intensity p0 p1 q2 p3 smp castShadow).getNumSamples :=
  ⟨rfl, rfl, rfl, fun _ _ => rfl, fun _ => rfl, rfl⟩

end CLightArea

namespace CShaderPhong

variable {σ : Type}

/-! ## The sample of an area light during `shade` -/

theorem sampleLoop_area_sampler (m : Libm) (omni : OmniIlluminate)
    (sh : CShaderPhong CLightArea) (normal reflect color : Vec3f) :
    ∀ (k : ℕ) (l : CLightArea) (shadow : Ray) (acc : Vec3f) (w1 : CLightArea) (r1 : Ray)
      (acc1 : Vec3f),
      sampleLoop m sh (CLightArea.toCLight omni) normal reflect color k l shadow acc
        = .ok (w1, r1, acc1) →
      w1.m_pSampler = l.m_pSampler ∧ w1.samplePoint = l.samplePoint := by
  intro k
  induction k with
  | zero =>
    intro l shadow acc w1 r1 acc1 h
    simp only [sampleLoop, Except.ok.injEq, Prod.mk.injEq] at h
    rw [← h.1]
    exact ⟨rfl, rfl⟩
  | succ k ih =>
    intro l shadow acc w1 r1 acc1 h
    rw [sampleLoop] at h
    rcases hc : (CLightArea.toCLight omni).illuminate l shadow with e | ⟨o, s1, l1⟩
    · simp [hc] at h
    · have hl1 : l1 = l.setOrigin l.samplePoint :=
        CLightArea.illuminate_ok_state omni l shadow s1 o l1 hc
      cases o with
      | none =>
        simp only [hc] at h
        have := ih l1 s1 _ w1 r1 acc1 h
        rw [hl1] at this
        exact this
      | some L =>
        simp only [hc] at h
        have := ih l1 s1 _ w1 r1 acc1 h
        rw [hl1] at this
        exact this

/-- C18: `illuminate` reads the sampler and leaves it as it is; a second call, on a ray
with the same origin, samples the same point of the emitter and (the point-light base
depending on the ray through its origin only) returns the same radiance and writes the
same direction and distance; and after any number of the calls `shade` makes for an area
light the sampler and the sampled point are those of the first call. -/
theorem illuminate_reads_sample_only (omni : OmniIlluminate) (l l1 : CLightArea)
    (ray ray2 ray1 : Ray) (o : Option Vec3f)
    (hbase : ∀ (s : CLightOmni) (r r1 : Ray), r.org = r1.org →
      (omni s r).1 = (omni s r1).1 ∧ (omni s r).2.dir = (omni s r1).2.dir ∧
      (omni s r).2.t = (omni s r1).2.t)
    (h1 : CLightArea.illuminate omni l ray = .ok (o, ray1, l1))
    (horg : ray2.org = ray.org) :
    l1.m_pSampler = l.m_pSampler ∧ l1.samplePoint = l.samplePoint ∧
    (∃ ray3, CLightArea.illuminate omni l1 ray2 = .ok (o, ray3, l1) ∧
      ray3.dir = ray1.dir ∧ ray3.t = ray1.t) ∧
    ∀ (m : Libm) (sh : CShaderPhong CLightArea) (normal reflect color : Vec3f) (k : ℕ)
      (shadow : Ray) (acc : Vec3f) (w1 : CLightArea) (r1 : Ray) (acc1 : Vec3f),
      sampleLoop m sh (CLightArea.toCLight omni) normal reflect color k l shadow acc
        = .ok (w1, r1, acc1) →
      w1.m_pSampler = l.m_pSampler ∧ w1.samplePoint = l.samplePoint := by
  have hs := CLightArea.illuminate_ok_state omni l ray ray1 o l1 h1
  subst hs
  refine ⟨rfl, rfl, ?_, fun m sh normal reflect color k shadow acc w1 r1 acc1 h =>
    sampleLoop_area_sampler m omni sh normal reflect color k l shadow acc w1 r1 acc1 h⟩
  have e1 := CLightArea.illuminate_eq omni l ray
  have e2 := CLightArea.illuminate_eq omni (l.setOrigin l.samplePoint) ray2
  have hS : ((l.setOrigin l.samplePoint).setOrigin
      (l.setOrigin l.samplePoint).samplePoint) = l.setOrigin l.samplePoint := rfl
  have hN : (l.setOrigin l.samplePoint).m_normal = l.m_normal := rfl
  have hA : (l.setOrigin l.samplePoint).m_area = l.m_area := rfl
  rw [hS, hN, hA] at e2
  obtain ⟨hb1, hb2, hb3⟩ := hbase (l.setOrigin l.samplePoint).toCLightOmni ray2 ray horg
  rw [hb1, hb2, hb3] at e2
  rw [h1] at e1
  rw [e2]
  rcases hq : (omni (l.setOrigin l.samplePoint).toCLightOmni ray).1 with _ | L
  · simp [hq] at e1
  · simp only [hq] at e1 ⊢
    by_cases h0 : (omni (l.setOrigin l.samplePoint).toCLightOmni ray).2.t = 0 ∧
        -((omni (l.setOrigin l.samplePoint).toCLightOmni ray).2.dir.dot l.m_normal) > 0
    · rw [if_pos h0] at e1
      exact absurd e1 (by simp)
    · rw [if_neg h0] at e1 ⊢
      by_cases hp : -((omni (l.setOrigin l.samplePoint).toCLightOmni ray).2.dir.dot l.m_normal)
          / (omni (l.setOrigin l.samplePoint).toCLightOmni ray).2.t > 0
      · rw [if_pos hp] at e1 ⊢
        have hinj := Except.ok.inj e1
        have ho : o = _ := congrArg Prod.fst hinj
        have hr : ray1 = _ := congrArg (fun p => p.2.1) hinj
        subst ho hr
        exact ⟨_, rfl, hb2, hb3⟩
      · rw [if_neg hp] at e1 ⊢
        have hinj := Except.ok.inj e1
        have ho : o = _ := congrArg Prod.fst hinj
        have hr : ray1 = _ := congrArg (fun p => p.2.1) hinj
        subst ho hr
        exact ⟨_, rfl, hb2, hb3⟩

/-- C18 (witness): two calls on the unit square light over the point light `exOmni`, the
second on the ray the first has written. -/
theorem illuminate_reads_sample_only_witness :
    ∃ ray3, CLightArea.illuminate exOmni (exAreaLight.setOrigin exAreaLight.samplePoint)
        ⟨⟨0, 0, 0⟩, ⟨0, 0, 1⟩, 1, none⟩
        = .ok (some ⟨1, 1, 1⟩, ray3, exAreaLight.setOrigin exAreaLight.samplePoint) ∧
      ray3.dir = (⟨0, 0, 1⟩ : Vec3f) ∧ ray3.t = 1 := by
  have hbase : ∀ (s : CLightOmni) (r r1 : Ray), r.org = r1.org →
      (exOmni s r).1 = (exOmni s r1).1 ∧ (exOmni s r).2.dir = (exOmni s r1).2.dir ∧
      (exOmni s r).2.t = (exOmni s r1).2.t := by
    intro s r r1 h
    simp [exOmni, h]
  have h1 : CLightArea.illuminate exOmni exAreaLight exShadow
      = .ok (some ⟨1, 1, 1⟩, ⟨⟨0, 0, 0⟩, ⟨0, 0, 1⟩, 1, none⟩,
          exAreaLight.setOrigin exAreaLight.samplePoint) := by
    norm_num [CLightArea.illuminate, exOmni, exAreaLight, CLightArea.new, CLightArea.setOrigin,
      CLightOmni.setOrigin, CLightArea.samplePoint, CSampler.getCurSample, CSampler.getSample,
      exShadow, normalize, norm, exLibm, ratSqrt, Vec3f.dot, Vec3f.cross, Vec3f.ext_iff]
  exact (illuminate_reads_sample_only exOmni exAreaLight
    (exAreaLight.setOrigin exAreaLight.samplePoint) exShadow ⟨⟨0, 0, 0⟩, ⟨0, 0, 1⟩, 1, none⟩
    ⟨⟨0, 0, 0⟩, ⟨0, 0, 1⟩, 1, none⟩ (some ⟨1, 1, 1⟩) hbase h1 rfl).2.2.1

/-! ## Lights whose calls leave the sample counts alone -/

theorem sampleLoop_store_invariant (m : Libm) (sh : CShaderPhong σ) (pLight : CLight σ)
    (normal reflect color : Vec3f) (I : σ → Prop)
    (hI : ∀ w r o r1 w1, I w → pLight.illuminate w r = .ok (o, r1, w1) → I w1) :
    ∀ (k : ℕ) (w : σ) (shadow : Ray) (acc : Vec3f) (w1 : σ) (r1 : Ray) (acc1 : Vec3f),
      I w → sampleLoop m sh pLight normal reflect color k w shadow acc = .ok (w1, r1, acc1) →
      I w1 := by
  intro k
  induction k with
  | zero =>
    intro w shadow acc w1 r1 acc1 hw h
    simp only [sampleLoop, Except.ok.injEq, Prod.mk.injEq] at h
    rw [← h.1]
    exact hw
  | succ k ih =>
    intro w shadow acc w1 r1 acc1 hw h
    rw [sampleLoop] at h
    rcases hcall : pLight.illuminate w shadow with e | ⟨o, s1, w2⟩
    · simp [hcall] at h
    · have hw2 := hI w shadow o s1 w2 hw hcall
      cases o with
      | none =>
        simp only [hcall] at h
        exact ih w2 s1 acc w1 r1 acc1 hw2 h
      | some L =>
        simp only [hcall] at h
        exact ih w2 s1 _ w1 r1 acc1 hw2 h

theorem sampleLoop_counts (m : Libm) (sh : CShaderPhong σ) (lights : List (CLight σ))
    (pLight : CLight σ) (normal reflect color : Vec3f) (hmem : pLight ∈ lights)
    (hkeep : ∀ l ∈ lights, ∀ l1 ∈ lights, ∀ w r o r1 w1,
      l.illuminate w r = .ok (o, r1, w1) → l1.getNumSamples w1 = l1.getNumSamples w)
    (k : ℕ) (w : σ) (shadow : Ray) (acc : Vec3f) (w1 : σ) (r1 : Ray) (acc1 : Vec3f)
    (h : sampleLoop m sh pLight normal reflect color k w shadow acc = .ok (w1, r1, acc1)) :
    ∀ l1 ∈ lights, l1.getNumSamples w1 = l1.getNumSamples w :=
  sampleLoop_store_invariant m sh pLight normal reflect color
    (fun w2 => ∀ l1 ∈ lights, l1.getNumSamples w2 = l1.getNumSamples w)
    (fun w2 r o r2 w3 hw2 hcall l1 hl1 => by
      rw [hkeep pLight hmem l1 hl1 w2 r o r2 w3 hcall]
      exact hw2 l1 hl1)
    k w shadow acc w1 r1 acc1 (fun _ _ => rfl) h

theorem lightLoop_ok_of_counts (m : Libm) (sh : CShaderPhong σ) (normal reflect color : Vec3f)
    (lights : List (CLight σ))
    (hok : ∀ l ∈ lights, ∀ w r, ∃ v, l.illuminate w r = .ok v)
    (hkeep : ∀ l ∈ lights, ∀ l1 ∈ lights, ∀ w r o r1 w1,
      l.illuminate w r = .ok (o, r1, w1) → l1.getNumSamples w1 = l1.getNumSamples w) :
    ∀ (ls : List (CLight σ)), (∀ l ∈ ls, l ∈ lights) →
      ∀ (w : σ) (shadow : Ray) (res : Vec3f),
        (∀ l ∈ lights, 1 ≤ l.getNumSamples w) →
        ∃ c, lightLoop m sh normal reflect color ls w shadow res = .ok c := by
  intro ls
  induction ls with
  | nil => intro _ w shadow res _; exact ⟨res, rfl⟩
  | cons l rest ih =>
    intro hsub w shadow res hn
    have hl : l ∈ lights := hsub l (List.mem_cons_self _ _)
    obtain ⟨⟨w1, r1, acc⟩, hv⟩ :=
      sampleLoop_ok m sh l normal reflect color (hok l hl) (l.getNumSamples w) w shadow
        (Vec3f.all 0)
    have hcnt := sampleLoop_counts m sh lights l normal reflect color hl hkeep _ w shadow _ w1 r1
      acc hv
    have hpos : l.getNumSamples w ≠ 0 := by
      have := hn l hl
      omega
    simp only [lightLoop, hv, hpos, if_false]
    exact ih (fun l1 h1 => hsub l1 (List.mem_cons_of_mem _ h1)) w1 r1 _
      (fun l1 h1 => by rw [hcnt l1 h1]; exact hn l1 h1)

theorem lightLoop_div_by_zero_iff (m : Libm) (sh : CShaderPhong σ)
    (normal reflect color : Vec3f) (lights : List (CLight σ))
    (hok : ∀ l ∈ lights, ∀ w r, ∃ v, l.illuminate w r = .ok v)
    (hkeep : ∀ l ∈ lights, ∀ l1 ∈ lights, ∀ w r o r1 w1,
      l.illuminate w r = .ok (o, r1, w1) → l1.getNumSamples w1 = l1.getNumSamples w) :
    ∀ (ls : List (CLight σ)), (∀ l ∈ ls, l ∈ lights) →
      ∀ (w : σ) (shadow : Ray) (res : Vec3f),
        (lightLoop m sh normal reflect color ls w shadow res = .error .div_by_zero
          ↔ ∃ l ∈ ls, l.getNumSamples w = 0) := by
  intro ls
  induction ls with
  | nil =>
    intro _ w shadow res
    simp [lightLoop]
  | cons l rest ih =>
    intro hsub w shadow res
    have hl : l ∈ lights := hsub l (List.mem_cons_self _ _)
    obtain ⟨⟨w1, r1, acc⟩, hv⟩ :=
      sampleLoop_ok m sh l normal reflect color (hok l hl) (l.getNumSamples w) w shadow
        (Vec3f.all 0)
    have hcnt := sampleLoop_counts m sh lights l normal reflect color hl hkeep _ w shadow _ w1 r1
      acc hv
    rw [lightLoop]
    simp only [hv]
    by_cases h0 : l.getNumSamples w = 0
    · rw [if_pos h0]
      exact ⟨fun _ => ⟨l, List.mem_cons_self _ _, h0⟩, fun _ => rfl⟩
    · rw [if_neg h0]
      rw [ih (fun l1 h1 => hsub l1 (List.mem_cons_of_mem _ h1)) w1 r1 _]
      constructor
      · rintro ⟨l1, hl1, hz⟩
        refine ⟨l1, List.mem_cons_of_mem _ hl1, ?_⟩
        rw [← hcnt l1 (hsub l1 (List.mem_cons_of_mem _ hl1))]
        exact hz
      · rintro ⟨l1, hl1, hz⟩
        rcases List.mem_cons.mp hl1 with heq | hmem
        · subst heq
          exact absurd hz h0
        · refine ⟨l1, hmem, ?_⟩
          rw [hcnt l1 (hsub l1 hl1)]
          exact hz

/-! ## Which samples add which terms -/

/-- C14: a sample for which `illuminate` reports a radiance, with `cosLightNormal > 0` and
the shadow ray occluded, leaves `sampleLight` as it was, whatever `cosLightReflect` is:
neither the diffuse nor the specular term is added, and the loop goes on with the next
sample. -/
theorem occluded_sample_adds_nothing (m : Libm) (sh : CShaderPhong σ) (pLight : CLight σ)
    (normal reflect color : Vec3f) (k : ℕ) (w w1 : σ) (shadow shadow1 : Ray)
    (lightIntensity sampleLight : Vec3f)
    (hcall : pLight.illuminate w shadow = .ok (some lightIntensity, shadow1, w1))
    (hcos : 0 < shadow1.dir.dot normal)
    (hocc : sh.m_scene.occluded shadow1 = true) :
    sampleBody m sh normal reflect color shadow1 lightIntensity sampleLight = sampleLight ∧
    sampleLoop m sh pLight normal reflect color (k + 1) w shadow sampleLight
      = sampleLoop m sh pLight normal reflect color k w1 shadow1 sampleLight := by
  have hb := sampleBody_occluded m sh normal reflect color shadow1 lightIntensity sampleLight
    hcos hocc
  refine ⟨hb, ?_⟩
  rw [sampleLoop]
  simp only [hcall, hb]

/-- C14 (witness): the light straight above the plane, every shadow ray occluded, with
`cosLightReflect = 4/5 > 0`. -/
theorem occluded_sample_adds_nothing_witness :
    (0 : ℚ) < (⟨0, 0, 1⟩ : Vec3f).dot ⟨3/5, 0, 4/5⟩ ∧
    sampleBody exLibm (exOccludedShader ⟨0, 0, 1⟩) ⟨0, 0, 1⟩ ⟨3/5, 0, 4/5⟩ ⟨1, 1, 1⟩
      { exShadow with dir := ⟨0, 0, 1⟩, t := 1 } ⟨1, 1, 1⟩ (Vec3f.all 0) = Vec3f.all 0 :=
  ⟨by norm_num [Vec3f.dot],
   (occluded_sample_adds_nothing exLibm (exOccludedShader ⟨0, 0, 1⟩)
      (exLight ⟨1, 1, 1⟩ ⟨0, 0, 1⟩ 1 1) ⟨0, 0, 1⟩ ⟨3/5, 0, 4/5⟩ ⟨1, 1, 1⟩ 0 () () exShadow
      { exShadow with dir := ⟨0, 0, 1⟩, t := 1 } ⟨1, 1, 1⟩ (Vec3f.all 0) rfl
      (by norm_num [Vec3f.dot]) rfl).1⟩

/-- C13: `shade` divides by the sample count of a light without a guard.  For a ray with a
hit and lights whose calls do not fault and leave the sample counts as they are: when
every light reports at least one sample `shade` returns a colour, and `shade` reaches a
division by zero exactly when some light of the scene reports zero samples. -/
theorem shade_div_by_zero_iff (m : Libm) (sh : CShaderPhong σ) (w : σ) (shadow0 ray : Ray)
    (hhit : ray.hit ≠ none)
    (hok : ∀ l ∈ sh.m_scene.getLights, ∀ w r, ∃ v, l.illuminate w r = .ok v)
    (hkeep : ∀ l ∈ sh.m_scene.getLights, ∀ l1 ∈ sh.m_scene.getLights, ∀ w r o r1 w1,
      l.illuminate w r = .ok (o, r1, w1) → l1.getNumSamples w1 = l1.getNumSamples w) :
    ((∀ l ∈ sh.m_scene.getLights, 1 ≤ l.getNumSamples w) →
      ∃ c, shade m sh w shadow0 ray = .ok c) ∧
    (shade m sh w shadow0 ray = .error .div_by_zero
      ↔ ∃ l ∈ sh.m_scene.getLights, l.getNumSamples w = 0) := by
  obtain ⟨prim, hp⟩ := Option.ne_none_iff_exists'.mp hhit
  constructor
  · intro hn
    obtain ⟨c, hc⟩ := lightLoop_ok_of_counts m sh
      (shadingNormal (prim.getNormal ray.org ray.dir ray.t) ray.dir)
      (reflection m (shadingNormal (prim.getNormal ray.org ray.dir ray.t) ray.dir) ray.dir)
      (CShaderFlat.shade sh ray) sh.m_scene.getLights hok hkeep sh.m_scene.getLights
      (fun _ h => h) w { shadow0 with org := ray.org + ray.t * ray.dir }
      (ambient sh (CShaderFlat.shade sh ray)) hn
    exact ⟨clamp c, by simp only [shade, shadeUnclamped, hp, hc]⟩
  · rw [← lightLoop_div_by_zero_iff m sh
      (shadingNormal (prim.getNormal ray.org ray.dir ray.t) ray.dir)
      (reflection m (shadingNormal (prim.getNormal ray.org ray.dir ray.t) ray.dir) ray.dir)
      (CShaderFlat.shade sh ray) sh.m_scene.getLights hok hkeep sh.m_scene.getLights
      (fun _ h => h) w { shadow0 with org := ray.org + ray.t * ray.dir }
      (ambient sh (CShaderFlat.shade sh ray))]
    simp only [shade, shadeUnclamped, hp]
    rcases lightLoop m sh (shadingNormal (prim.getNormal ray.org ray.dir ray.t) ray.dir)
      (reflection m (shadingNormal (prim.getNormal ray.org ray.dir ray.t) ray.dir) ray.dir)
      (CShaderFlat.shade sh ray) sh.m_scene.getLights w
      { shadow0 with org := ray.org + ray.t * ray.dir }
      (ambient sh (CShaderFlat.shade sh ray)) with e | c
    · simp
    · simp

/-- C13 (witness): the scene whose one light reports zero samples; `shade` reaches the
division by zero. -/
theorem shade_div_by_zero_iff_witness :
    shade exLibm exZeroSampleShader () exRay0 exRay = .error .div_by_zero :=
  (shade_div_by_zero_iff exLibm exZeroSampleShader () exRay0 exRay (by simp [exRay])
    (by
      intro l hl w r
      simp only [exZeroSampleShader, List.mem_singleton] at hl
      subst hl
      exact ⟨_, rfl⟩)
    (by
      intro l hl l1 hl1 w r o r1 w1 _
      simp only [exZeroSampleShader, List.mem_singleton] at hl1
      subst hl1
      rfl)).2.mpr
    ⟨exLight ⟨1, 1, 1⟩ ⟨0, 0, 1⟩ 1 0, by simp [exZeroSampleShader], rfl⟩

/-! ## The reflection vector -/

/-- C19: for a hit normal `n` and a ray direction `d` of length 1 (and `sqrt 1 = 1`), the
corrected normal has length 1, the vector `d - 2 (normal · d) normal` has length 1 and
normalizing it changes nothing, and the reflection vector satisfies
`reflect · normal = -(d · normal) ≥ 0`. -/
theorem reflection_unit_and_facing (m : Libm) (n d : Vec3f)
    (hsqrt : m.sqrt 1 = 1) (hn : n.dot n = 1) (hd : d.dot d = 1) :
    (shadingNormal n d).dot (shadingNormal n d) = 1 ∧
    (d - (2 * (shadingNormal n d).dot d) * shadingNormal n d).dot
      (d - (2 * (shadingNormal n d).dot d) * shadingNormal n d) = 1 ∧
    reflection m (shadingNormal n d) d
      = d - (2 * (shadingNormal n d).dot d) * shadingNormal n d ∧
    (reflection m (shadingNormal n d) d).dot (shadingNormal n d)
      = -(d.dot (shadingNormal n d)) ∧
    0 ≤ (reflection m (shadingNormal n d) d).dot (shadingNormal n d) := by
  have hN : (shadingNormal n d).dot (shadingNormal n d) = 1 := by
    unfold shadingNormal
    split_ifs
    · rw [← hn]
      simp only [Vec3f.dot, Vec3f.neg_x, Vec3f.neg_y, Vec3f.neg_z]
      ring
    · exact hn
  have hNd : (shadingNormal n d).dot d ≤ 0 := by
    unfold shadingNormal
    split_ifs with h
    · rw [Vec3f.dot_neg_left]
      linarith
    · exact not_lt.mp h
  generalize shadingNormal n d = N at hN hNd ⊢
  have hv : (d - (2 * N.dot d) * N).dot (d - (2 * N.dot d) * N)
      = d.dot d - 4 * (N.dot d) ^ 2 + 4 * (N.dot d) ^ 2 * N.dot N := by
    simp only [Vec3f.dot, Vec3f.sub_x, Vec3f.sub_y, Vec3f.sub_z, Vec3f.smul_x, Vec3f.smul_y,
      Vec3f.smul_z]
    ring
  have hv1 : (d - (2 * N.dot d) * N).dot (d - (2 * N.dot d) * N) = 1 := by
    rw [hv, hN, hd]
    ring
  have hr : reflection m N d = d - (2 * N.dot d) * N := by
    unfold reflection normalize norm
    simp only [hv1, hsqrt]
    ext <;> simp
  have hdot : (d - (2 * N.dot d) * N).dot N = -(d.dot N) := by
    have h1 : (d - (2 * N.dot d) * N).dot N = d.dot N - 2 * N.dot d * N.dot N := by
      simp only [Vec3f.dot, Vec3f.sub_x, Vec3f.sub_y, Vec3f.sub_z, Vec3f.smul_x, Vec3f.smul_y,
        Vec3f.smul_z]
      ring
    have h2 : N.dot d = d.dot N := by
      simp only [Vec3f.dot]
      ring
    rw [h1, hN, h2]
    ring
  refine ⟨hN, hv1, hr, by rw [hr, hdot], ?_⟩
  rw [hr, hdot]
  have h2 : N.dot d = d.dot N := by
    simp only [Vec3f.dot]
    ring
  linarith

/-- C19 (witness): the normal `(0,0,1)` and the direction `(3/5, 0, -4/5)`; the reflection
vector is `(3/5, 0, 4/5)`. -/
theorem reflection_unit_and_facing_witness :
    reflection exLibm (shadingNormal ⟨0, 0, 1⟩ ⟨3/5, 0, -4/5⟩) ⟨3/5, 0, -4/5⟩
      = (⟨3/5, 0, 4/5⟩ : Vec3f) := by
  rw [(reflection_unit_and_facing exLibm ⟨0, 0, 1⟩ ⟨3/5, 0, -4/5⟩ (by simp [exLibm, ratSqrt])
    (by norm_num [Vec3f.dot]) (by norm_num [Vec3f.dot])).2.2.1]
  norm_num [shadingNormal, Vec3f.dot, Vec3f.ext_iff]

/-- The calls of an area light leave its sample count as it is. -/
theorem toCLight_keeps_counts (omni : OmniIlluminate) (l l1 : CLightArea) (ray ray1 : Ray)
    (o : Option Vec3f)
    (h : (CLightArea.toCLight omni).illuminate l ray = .ok (o, ray1, l1)) :
    (CLightArea.toCLight omni).getNumSamples l1 = (CLightArea.toCLight omni).getNumSamples l := by
  rw [CLightArea.illuminate_ok_state omni l ray ray1 o l1 h]
  rfl

end CShaderPhong

namespace Ieee

/-! ## Floating-point values: the clamp lets NaN through -/

namespace CShaderPhong

variable {σ : Type}

theorem clamp_component (a : FloatVal) :
    (if a.gt (.finite 1) = true then FloatVal.finite 1 else a).gt (.finite 1) = false ∧
    ((if a.gt (.finite 1) = true then FloatVal.finite 1 else a) = .nan ∨
      (if a.gt (.finite 1) = true then FloatVal.finite 1 else a).le (.finite 1) = true) := by
  cases a with
  | finite q =>
    by_cases h : q > 1
    · simp [FloatVal.gt, FloatVal.le, h]
    · simp [FloatVal.gt, FloatVal.le, h, not_lt.mp h]
  | posInf => simp [FloatVal.gt, FloatVal.le]
  | negInf => simp [FloatVal.gt, FloatVal.le]
  | nan => simp [FloatVal.gt]

theorem sampleLoop_returns (fmt : FloatFormat) (m : Libm) (sh : CShaderPhong σ)
    (pLight : CLight σ) (normal reflect color : Vec3f)
    (hl : ∀ w r, ∃ v, pLight.illuminate w r = .ok v) :
    ∀ (k : ℕ) (w : σ) (shadow : Ray) (acc : Vec3f),
      ∃ v, sampleLoop fmt m sh pLight normal reflect color k w shadow acc = .ok v := by
  intro k
  induction k with
  | zero => intro w shadow acc; exact ⟨_, rfl⟩
  | succ k ih =>
    intro w shadow acc
    obtain ⟨⟨o, r1, w1⟩, hv⟩ := hl w shadow
    cases o with
    | none => simp only [sampleLoop, hv]; exact ih w1 r1 acc
    | some L => simp only [sampleLoop, hv]; exact ih w1 r1 _

theorem lightLoop_returns (fmt : FloatFormat) (m : Libm) (sh : CShaderPhong σ)
    (normal reflect color : Vec3f) :
    ∀ (ls : List (CLight σ)),
      (∀ l ∈ ls, ∀ w r, ∃ v, l.illuminate w r = .ok v) →
      ∀ (w : σ) (shadow : Ray) (res : Vec3f),
        ∃ c, lightLoop fmt m sh normal reflect color ls w shadow res = .ok c := by
  intro ls
  induction ls with
  | nil => intro _ w shadow res; exact ⟨res, rfl⟩
  | cons l rest ih =>
    intro hl w shadow res
    obtain ⟨⟨w1, r1, acc⟩, hv⟩ :=
      sampleLoop_returns fmt m sh l normal reflect color (hl l (List.mem_cons_self _ _))
        (l.getNumSamples w) w shadow (Vec3f.all (.finite 0))
    simp only [lightLoop, hv]
    exact ih (fun l1 h1 => hl l1 (List.mem_cons_of_mem _ h1)) w1 r1 _

/-- C1 (as stated, refuted): colour `(2^127, 1, 1)`, `kd = 4`, one unoccluded light of one
sample and radiance `(0, 0, 0)` straight above: `kd · color` overflows to `Inf` in the
first channel, `Inf · 0` is NaN, the test `res.val[0] > 1` is false for NaN, and `shade`
returns `(NaN, 0, 0)`, whose first component is not `<= 1`. -/
theorem shade_returns_nan :
    shade exFormat exLibm (exShader (vec (2 ^ 127) 1 1) 0 4 0 (vec 0 0 0)) () exRay0 exRay
      = .ok ⟨.nan, .finite 0, .finite 0⟩ ∧
    FloatVal.le .nan (.finite 1) = false := by
  refine ⟨?_, rfl⟩
  norm_num [shade, exShader, exRay, exRay0, exPrim, vec, lightLoop, sampleLoop, exLight,
    sampleBody, shadingNormal, reflection, normalize, norm, exLibm, exFormat, ratSqrt, ambient,
    CShaderFlat.shade, Vec3f.dot, Vec3f.add, Vec3f.sub, Vec3f.neg, Vec3f.smul, Vec3f.muls,
    Vec3f.mul, Vec3f.all, clamp, FloatVal.add, FloatVal.sub, FloatVal.neg, FloatVal.mul,
    FloatVal.div, FloatVal.gt, FloatVal.ofRat, FloatVal.signedInf]

/-- C1 (amended): for every ray, scene, base colour, coefficients and radiance the lights
report, every component `c` of the colour `shade` returns fails the test `c > 1` of the
final loop: it is at most 1 or it is NaN; and `shade` does return a colour when the ray
has a hit and no light call throws. -/
theorem shade_components_not_above_one (fmt : FloatFormat) (m : Libm) (sh : CShaderPhong σ)
    (w : σ) (shadow0 ray : Ray) :
    (∀ c, shade fmt m sh w shadow0 ray = .ok c →
      (c.x.gt (.finite 1) = false ∧ (c.x = .nan ∨ c.x.le (.finite 1) = true)) ∧
      (c.y.gt (.finite 1) = false ∧ (c.y = .nan ∨ c.y.le (.finite 1) = true)) ∧
      (c.z.gt (.finite 1) = false ∧ (c.z = .nan ∨ c.z.le (.finite 1) = true))) ∧
    (ray.hit ≠ none →
      (∀ l ∈ sh.m_scene.getLights, ∀ w r, ∃ v, l.illuminate w r = .ok v) →
      ∃ c, shade fmt m sh w shadow0 ray = .ok c) := by
  constructor
  · intro c hc
    unfold shade at hc
    cases hh : ray.hit with
    | none => simp [hh] at hc
    | some prim =>
      simp only [hh] at hc
      split at hc
      · exact absurd hc (by simp)
      · simp only [Except.ok.injEq] at hc
        subst hc
        exact ⟨clamp_component _, clamp_component _, clamp_component _⟩
  · intro hhit hl
    obtain ⟨prim, hp⟩ := Option.ne_none_iff_exists'.mp hhit
    obtain ⟨c, hc⟩ := lightLoop_returns fmt m sh
      (shadingNormal fmt (prim.getNormal ray.org ray.dir ray.t) ray.dir)
      (reflection fmt m (shadingNormal fmt (prim.getNormal ray.org ray.dir ray.t) ray.dir)
        ray.dir)
      (CShaderFlat.shade sh ray) sh.m_scene.getLights hl w
      { shadow0 with org := ray.org.add fmt (ray.dir.smul fmt ray.t) }
      (ambient fmt sh (CShaderFlat.shade sh ray))
    exact ⟨clamp c, by simp only [shade, hp, hc]⟩

end CShaderPhong

end Ieee

namespace Ieee

/-! ## Floating-point values: what is not negative stays so, or becomes NaN -/

namespace FloatVal

theorem nanOrNonneg_of_nonneg (a : FloatVal) (h : (finite 0).le a = true) : NanOrNonneg a :=
  Or.inr h

end FloatVal

end Ieee

namespace Ieee

namespace CShaderPhong

variable {σ : Type}

end CShaderPhong

end Ieee

namespace Ieee

/-! ## Floating-point values: the area light at distance zero -/

namespace FloatVal

end FloatVal

namespace CLightArea

end CLightArea

end Ieee

namespace CShaderPhong

variable {σ : Type}

/-! ## A light whose calls repeat -/

theorem sampleLoop_error (m : Libm) (sh : CShaderPhong σ) (pLight : CLight σ)
    (normal reflect color : Vec3f) (k : ℕ) (w : σ) (shadow : Ray) (acc : Vec3f) (e : Fault)
    (hcall : pLight.illuminate w shadow = .error e) :
    sampleLoop m sh pLight normal reflect color (k + 1) w shadow acc = .error e := by
  rw [sampleLoop]
  simp only [hcall]

theorem sampleLoop_repeat (m : Libm) (sh : CShaderPhong σ) (pLight : CLight σ)
    (normal reflect color : Vec3f)
    (hrep : ∀ w r o r1 w1, pLight.illuminate w r = .ok (o, r1, w1) →
      pLight.illuminate w1 r1 = .ok (o, r1, w1)) :
    ∀ (k : ℕ) (w : σ) (shadow : Ray) (acc : Vec3f) (o : Option Vec3f) (r1 : Ray) (w1 : σ),
      pLight.illuminate w shadow = .ok (o, r1, w1) →
      sampleLoop m sh pLight normal reflect color (k + 1) w shadow acc
        = .ok (w1, r1, acc + ((k + 1 : ℕ) : ℚ) * sampleTerm m sh normal reflect color o r1) := by
  intro k
  induction k with
  | zero =>
    intro w shadow acc o r1 w1 hcall
    rw [sampleLoop]
    cases o with
    | none =>
      simp only [hcall, sampleLoop, sampleTerm]
      congr 3
      ext <;> simp
    | some L =>
      simp only [hcall, sampleLoop, sampleTerm]
      rw [sampleBody_add]
      congr 3
      ext <;> simp
  | succ k ih =>
    intro w shadow acc o r1 w1 hcall
    rw [sampleLoop]
    have hnext := hrep w shadow o r1 w1 hcall
    cases o with
    | none =>
      simp only [hcall]
      rw [ih w1 r1 acc none r1 w1 hnext]
      congr 3
      ext <;> simp [sampleTerm]
    | some L =>
      simp only [hcall]
      rw [ih w1 r1 _ (some L) r1 w1 hnext, sampleBody_add m sh normal reflect color r1 L acc]
      congr 3
      ext <;> simp [sampleTerm] <;> ring

theorem lightLoop_repeat (m : Libm) (sh : CShaderPhong σ) (pLight : CLight σ)
    (normal reflect color : Vec3f)
    (hrep : ∀ w r o r1 w1, pLight.illuminate w r = .ok (o, r1, w1) →
      pLight.illuminate w1 r1 = .ok (o, r1, w1))
    (n : ℕ) (hn : 1 ≤ n) (post : List (CLight σ)) (w : σ) (shadow : Ray) (res : Vec3f)
    (o : Option Vec3f) (r1 : Ray) (w1 : σ)
    (hcall : pLight.illuminate w shadow = .ok (o, r1, w1)) :
    lightLoop m sh normal reflect color (pLight.withSamples n :: post) w shadow res
      = lightLoop m sh normal reflect color post w1 r1
          (res + sampleTerm m sh normal reflect color o r1) := by
  obtain ⟨k, rfl⟩ : ∃ k, n = k + 1 := ⟨n - 1, by omega⟩
  have hloop := sampleLoop_repeat m sh (pLight.withSamples (k + 1)) normal reflect color hrep k
    w shadow (Vec3f.all 0) o r1 w1 hcall
  rw [lightLoop]
  simp only [CLight.withSamples] at hloop ⊢
  rw [hloop]
  simp only [Nat.succ_ne_zero, if_false]
  rw [average_steady _ _ (k + 1) hn]

theorem lightLoop_repeat_error (m : Libm) (sh : CShaderPhong σ) (pLight : CLight σ)
    (normal reflect color : Vec3f) (n : ℕ) (hn : 1 ≤ n) (post : List (CLight σ)) (w : σ)
    (shadow : Ray) (res : Vec3f) (e : Fault)
    (hcall : pLight.illuminate w shadow = .error e) :
    lightLoop m sh normal reflect color (pLight.withSamples n :: post) w shadow res
      = .error e := by
  obtain ⟨k, rfl⟩ : ∃ k, n = k + 1 := ⟨n - 1, by omega⟩
  have hloop := sampleLoop_error m sh (pLight.withSamples (k + 1)) normal reflect color k w
    shadow (Vec3f.all 0) e hcall
  rw [lightLoop]
  simp only [CLight.withSamples] at hloop ⊢
  rw [hloop]

theorem lightLoop_count_irrelevant (m : Libm) (sh : CShaderPhong σ) (pLight : CLight σ)
    (normal reflect color : Vec3f)
    (hrep : ∀ w r o r1 w1, pLight.illuminate w r = .ok (o, r1, w1) →
      pLight.illuminate w1 r1 = .ok (o, r1, w1))
    (n k : ℕ) (hn : 1 ≤ n) (hk : 1 ≤ k) (post : List (CLight σ)) :
    ∀ (pre : List (CLight σ)) (w : σ) (shadow : Ray) (res : Vec3f),
      lightLoop m sh normal reflect color (pre ++ pLight.withSamples n :: post) w shadow res
        = lightLoop m sh normal reflect color (pre ++ pLight.withSamples k :: post) w shadow
            res := by
  intro pre
  induction pre with
  | nil =>
    intro w shadow res
    simp only [List.nil_append]
    rcases hcall : pLight.illuminate w shadow with e | ⟨o, r1, w1⟩
    · rw [lightLoop_repeat_error m sh pLight normal reflect color n hn post w shadow res e hcall,
        lightLoop_repeat_error m sh pLight normal reflect color k hk post w shadow res e hcall]
    · rw [lightLoop_repeat m sh pLight normal reflect color hrep n hn post w shadow res o r1 w1
          hcall,
        lightLoop_repeat m sh pLight normal reflect color hrep k hk post w shadow res o r1 w1
          hcall]
  | cons l pre ih =>
    intro w shadow res
    simp only [List.cons_append, lightLoop, List.append_eq, ih]

/-- C6: a light whose `illuminate`, called again right after a call, reports the same
radiance and writes the same ray (direction and distance) and leaves the store as the call
left it, in any scene: `shade` returns the same when the light reports `2n` samples as when
it reports `n ≥ 1`; and the term the loop over the lights adds for it (line 77), `1/n`
times the sum over its `n` samples, is what one sample adds. -/
theorem shade_sample_count_doubling (m : Libm) (sh : CShaderPhong σ) (w : σ)
    (shadow0 ray : Ray) (pre post : List (CLight σ)) (pLight : CLight σ) (n : ℕ)
    (hn : 1 ≤ n)
    (hrep : ∀ w r o r1 w1, pLight.illuminate w r = .ok (o, r1, w1) →
      pLight.illuminate w1 r1 = .ok (o, r1, w1)) :
    shade m (sh.withLights (pre ++ pLight.withSamples (2 * n) :: post)) w shadow0 ray
        = shade m (sh.withLights (pre ++ pLight.withSamples n :: post)) w shadow0 ray ∧
    ∀ (normal reflect color : Vec3f) (w : σ) (shadow : Ray) (res : Vec3f)
      (o : Option Vec3f) (r1 : Ray) (w1 : σ),
      pLight.illuminate w shadow = .ok (o, r1, w1) →
      lightLoop m sh normal reflect color [pLight.withSamples n] w shadow res
        = .ok (res + sampleTerm m sh normal reflect color o r1) := by
  constructor
  · have h2n : 1 ≤ 2 * n := by omega
    simp only [shade, shadeUnclamped_withLights]
    cases ray.hit with
    | none => rfl
    | some prim =>
      simp only
      rw [lightLoop_count_irrelevant m sh pLight _ _ _ hrep (2 * n) n h2n hn post pre]
  · intro normal reflect color w shadow res o r1 w1 hcall
    rw [lightLoop_repeat m sh pLight normal reflect color hrep n hn [] w shadow res o r1 w1
      hcall]
    rfl

/-- The calls of an area light repeat when those of the point-light base do: when the base,
called on the ray it has written, gives the same again. -/
theorem toCLight_repeats (omni : OmniIlluminate)
    (hbase : ∀ s r, omni s (omni s r).2 = omni s r)
    (l : CLightArea) (ray : Ray) (o : Option Vec3f) (ray1 : Ray) (l1 : CLightArea)
    (h : (CLightArea.toCLight omni).illuminate l ray = .ok (o, ray1, l1)) :
    (CLightArea.toCLight omni).illuminate l1 ray1 = .ok (o, ray1, l1) := by
  have hs := CLightArea.illuminate_ok_state omni l ray ray1 o l1 h
  subst hs
  have e1 : CLightArea.illuminate omni l ray
      = .ok (o, ray1, l.setOrigin l.samplePoint) := h
  show CLightArea.illuminate omni (l.setOrigin l.samplePoint) ray1
      = .ok (o, ray1, l.setOrigin l.samplePoint)
  have hS : ((l.setOrigin l.samplePoint).setOrigin
      (l.setOrigin l.samplePoint).samplePoint) = l.setOrigin l.samplePoint := rfl
  have hb := hbase (l.setOrigin l.samplePoint).toCLightOmni ray
  unfold CLightArea.illuminate at e1 ⊢
  rw [hS]
  rcases hA : omni (l.setOrigin l.samplePoint).toCLightOmni ray with ⟨_ | L, rA⟩
  · simp [hA] at e1
  · rw [hA] at hb
    simp only [hA] at e1
    have hb2 : omni (l.setOrigin l.samplePoint).toCLightOmni rA = (some L, rA) := hb
    split_ifs at e1 with h0 hp
    · have hinj := Except.ok.inj e1
      have hr : rA = ray1 := congrArg (fun p => p.2.1) hinj
      subst hr
      simp only [hb2, h0, hp, if_true, if_false]
      exact e1
    · have hinj := Except.ok.inj e1
      have hr : rA = ray1 := congrArg (fun p => p.2.1) hinj
      subst hr
      simp only [hb2, h0, hp, if_true, if_false]
      exact e1

/-- C6 (witness): the unit square light over the point light `exOmni`, its sampler left
where it is, with one sample and with two: `shade` returns `3/5` in each component for
both, below the clamp. -/
theorem shade_sample_count_doubling_witness :
    shade exLibm (exAreaShader.withLights
        ([] ++ (CLightArea.toCLight exOmni).withSamples (2 * 1) :: [])) exAreaLight exRay0 exRay
      = shade exLibm (exAreaShader.withLights
        ([] ++ (CLightArea.toCLight exOmni).withSamples 1 :: [])) exAreaLight exRay0 exRay ∧
    shade exLibm (exAreaShader.withLights
        ([] ++ (CLightArea.toCLight exOmni).withSamples 1 :: [])) exAreaLight exRay0 exRay
      = .ok ⟨3/5, 3/5, 3/5⟩ := by
  refine ⟨(shade_sample_count_doubling exLibm exAreaShader exAreaLight exRay0 exRay [] []
    (CLightArea.toCLight exOmni) 1 (le_refl 1)
    (toCLight_repeats exOmni (fun _ _ => rfl))).1, ?_⟩
  norm_num [shade, shadeUnclamped, withLights, CLight.withSamples, exAreaShader, exAreaLight,
    exRay, exRay0, exPrim, lightLoop, sampleLoop, sampleBody, CLightArea.toCLight,
    CLightArea.illuminate, CLightArea.new, CLightArea.setOrigin, CLightOmni.setOrigin,
    CLightArea.samplePoint, CSampler.getCurSample, CSampler.getSample, exOmni, shadingNormal,
    reflection, normalize, norm, exLibm, ratSqrt, ambient, CShaderFlat.shade, Vec3f.dot,
    Vec3f.cross, clamp, RGB, Vec3f.ext_iff]

end CShaderPhong

namespace CLightArea

/-! ## The normal and the area of the emitter -/

end CLightArea

namespace Ieee

/-- An area light over a point-light base that always reports a radiance: no call
throws. -/
theorem toCLight_total (fmt : FloatFormat) (omni : OmniIlluminate)
    (hbase : ∀ s r, ∃ L r1, omni s r = (some L, r1)) (l : CLightArea) (ray : Ray) :
    ∃ v, (CLightArea.toCLight fmt omni).illuminate l ray = .ok v := by
  obtain ⟨L, r1, hb⟩ := hbase (l.setOrigin (l.samplePoint fmt)).toCLightOmni ray
  show ∃ v, CLightArea.illuminate fmt omni l ray = .ok v
  simp only [CLightArea.illuminate, hb]
  split_ifs
  · exact ⟨_, rfl⟩
  · exact ⟨_, rfl⟩

end Ieee

end EydenTracer
